import Mathlib

/-!
# burrow_exporter: scrape orchestration and aggregation engine

A shallow embedding of `exporter/client.go` and `exporter/collector.go`.

* Go `string` is `String`, `int64`, `int32` and `int` are `Int`.
* A `float64` made from an integer is kept as the integer it equals (`Float64`); the
  conversion `float64` rounds to 53 significant bits.
* A Go function returning `(value, error)` returns `Except GoError value`.
* A function that talks to the outside world returns, next to its result, the list of
  `Event`s it performed (requests to the Status Source, sends to the sink, mutex operations),
  in program order.  Logging and `time.Now()` have no influence on any result and are left out.
* The libraries the repository calls (`net/url`, `path`, `net/http`, `encoding/json`,
  `fmt`, `strconv`, `strings`, `sync`, `prometheus`) are not part of the repository; the
  network side is a parameter (`Net`), the rest is described next to each definition.
-/

namespace Burrow

/-! ## Values of external libraries -/

/-- A Go `error` value.  `plain msg` is an error made by a library (`url.Parse`,
`http.Client.Get`, `json.Decoder.Decode`); `errorf format` is the value of
`fmt.Errorf(format)` called with a format string and no operands. -/
inductive GoError where
  | plain (msg : String)
  | errorf (format : String)
deriving DecidableEq, Repr

/-- Characters which, right after a percent sign, start a flag, a width, a precision or an
argument index in a `fmt` format string. -/
def isDirectiveChar (c : Char) : Bool :=
  c = '#' || c = '+' || c = '-' || c = ' ' || c = '.' || c = '[' || c = '*' || c.isDigit

/-- The text `fmt` writes for a format string when the call has no operands, on the formats
whose percent signs are followed directly by a verb (or by nothing): literal text is copied,
`%%` gives one percent sign, a verb `v` finds no operand and gives `%!v(MISSING)`, a percent
sign at the very end gives `%!(NOVERB)`.  Formats with flags, width, precision or argument
index are outside the modelled fragment (`none`). -/
def sprintfNoOperands : List Char → Option (List Char)
  | [] => some []
  | [c] => if c = '%' then some "%!(NOVERB)".toList else some [c]
  | c :: v :: rest =>
    if c = '%' then
      if v = '%' then (sprintfNoOperands rest).map (fun out => '%' :: out)
      else if isDirectiveChar v then none
      else (sprintfNoOperands rest).map
        (fun out => "%!".toList ++ v :: "(MISSING)".toList ++ out)
    else (sprintfNoOperands (v :: rest)).map (fun out => c :: out)

/-- The message of an error value, what `err.Error()` returns. -/
def GoError.Error : GoError → Option String
  | .plain msg => some msg
  | .errorf format => (sprintfNoOperands format.toList).map String.mk

/-- The decimal text of an integer, `strconv.Itoa`. -/
def Itoa (n : Int) : String := toString n

/-- The pieces of `strings.Split(s, sep)` for a one-character separator, on characters:
a text with `n` separators has `n + 1` pieces, empty ones included. -/
def splitChars (sep : Char) : List Char → List (List Char)
  | [] => [[]]
  | c :: cs =>
    if c = sep then [] :: splitChars sep cs
    else
      match splitChars sep cs with
      | [] => [[c]]
      | piece :: pieces => (c :: piece) :: pieces

/-- The call `strings.Split(s, ",")`. -/
def splitComma (s : String) : List String :=
  (splitChars ',' s.toList).map String.mk

/-- A `float64` whose value is an integer, kept as that integer.  Every `float64` of this
program is the conversion of an `int64`, and such a conversion is always an integer: below
`2^53` it is the number itself, from `2^53` on every `float64` is a multiple of a power of
two. -/
structure Float64 where
  toInt : Int
deriving DecidableEq, Repr

/-- The number of low bits a natural number has beyond 53 significant bits; `fuel` bounds
the count and the number itself is always enough. -/
def excessBits : Nat → Nat → Nat
  | 0, _ => 0
  | fuel + 1, n => if n < 2 ^ 53 then 0 else excessBits fuel (n / 2) + 1

/-- A natural number rounded to 53 significant bits, to the nearest candidate and to the
even one on a tie: the rounding of IEEE 754 that Go applies when it converts an integer to
`float64`. -/
def roundNat (n : Nat) : Nat :=
  let e := excessBits n n
  let q := n / 2 ^ e
  let r := n % 2 ^ e
  if 2 * r > 2 ^ e ∨ (2 * r = 2 ^ e ∧ q % 2 = 1) then (q + 1) * 2 ^ e else q * 2 ^ e

/-- The conversion `float64(x)` of an `int64`: the magnitude is rounded, the sign kept. -/
def float64 (x : Int) : Float64 :=
  ⟨if x < 0 then -(roundNat x.natAbs : Int) else (roundNat x.natAbs : Int)⟩

/-- A metric descriptor, `prometheus.Desc`: name, help text and the names of its labels. -/
structure Desc where
  fqName : String
  help : String
  variableLabels : List String
deriving DecidableEq, Repr

/-- The descriptor built by `prometheus.NewDesc(fqName, help, variableLabels, nil)`. -/
def NewDesc (fqName help : String) (variableLabels : List String) : Desc :=
  ⟨fqName, help, variableLabels⟩

/-- The kind of a sample, `prometheus.ValueType`. -/
inductive ValueType where
  | CounterValue
  | GaugeValue
  | UntypedValue
deriving DecidableEq, Repr

/-- A sample, `prometheus.Metric` as built by `NewConstMetric`. -/
structure Metric where
  desc : Desc
  valueType : ValueType
  value : Float64
  labelValues : List String
deriving DecidableEq, Repr

/-- The constructor `prometheus.NewConstMetric`: it fails when the number of label values
differs from the number of labels the descriptor declares.  (Its other checks cannot fail
here: the seven descriptors below are well formed, and a `String` is valid UTF-8.) -/
def NewConstMetric (desc : Desc) (valueType : ValueType) (value : Float64)
    (labelValues : List String) : Except GoError Metric :=
  if labelValues.length ≠ desc.variableLabels.length then
    .error (.plain "inconsistent label cardinality")
  else
    .ok ⟨desc, valueType, value, labelValues⟩

/-! ## client.go -/

structure BurrowResp where
  Error : Bool
  Message : String
deriving DecidableEq, Repr

structure ClustersResp extends BurrowResp where
  Clusters : List String
deriving DecidableEq, Repr

structure ConsumerGroupsResp extends BurrowResp where
  ConsumerGroups : List String
deriving DecidableEq, Repr

structure TopicsResp extends BurrowResp where
  Topics : List String
deriving DecidableEq, Repr

structure Offset where
  Offset : Int
  Timestamp : Int
  Lag : Int
  MaxOffset : Int
deriving DecidableEq, Repr

structure Partition where
  Topic : String
  Partition : Int
  Status : String
  Start : Offset
  End : Offset
  CurrentLag : Int
deriving DecidableEq, Repr

structure ConsumerGroupStatus where
  Cluster : String
  Group : String
  Status : String
  MaxLag : Partition
  Partitions : List Partition
  TotalLag : Int
deriving DecidableEq, Repr

structure ConsumerGroupStatusResp extends BurrowResp where
  Status : ConsumerGroupStatus
deriving DecidableEq, Repr

structure ClusterTopicDetailsResp extends BurrowResp where
  Offsets : List Int
deriving DecidableEq, Repr

/-- The outside world as the client sees it.  `joinURL base endpoint` is `url.Parse(base)`
followed by `path.Join` of the parsed path with `endpoint` and `String()`; each `get…`
function is `http.Client.Get(url)` followed by decoding the body as JSON into the given
response type, failing when either step fails. -/
structure Net where
  joinURL : String → String → Except GoError String
  getClusters : String → Except GoError ClustersResp
  getConsumerGroups : String → Except GoError ConsumerGroupsResp
  getTopics : String → Except GoError TopicsResp
  getConsumerGroupStatus : String → Except GoError ConsumerGroupStatusResp
  getClusterTopicDetails : String → Except GoError ClusterTopicDetailsResp

/-- What a collection cycle does to the outside world. -/
inductive Event where
  | lock
  | unlock
  | request (url : String)
  | send (metric : Metric)
deriving DecidableEq, Repr

structure BurrowClient where
  baseURL : String
  apiversion : Int
  client : Net

def BurrowClient.buildURL (bc : BurrowClient) (endpoint : String) : Except GoError String :=
  bc.client.joinURL bc.baseURL endpoint

/-- The call `getJsonReq(endpoint, dest)`; `fetch` is the member of `Net` for the type of
`dest`.  It performs one request. -/
def BurrowClient.getJsonReq {α : Type} (_bc : BurrowClient) (fetch : String → Except GoError α)
    (endpoint : String) : List Event × Except GoError α :=
  ([Event.request endpoint], fetch endpoint)

def BurrowClient.ListClusters (bc : BurrowClient) : List Event × Except GoError ClustersResp :=
  match bc.buildURL "/kafka" with
  | .error err => ([], .error err)
  | .ok endpoint =>
    match bc.getJsonReq bc.client.getClusters endpoint with
    | (evs, .error err) => (evs, .error err)
    | (evs, .ok clusters) =>
      if clusters.Error then (evs, .error (.errorf clusters.Message))
      else (evs, .ok clusters)

def BurrowClient.ListConsumers (bc : BurrowClient) (cluster : String) :
    List Event × Except GoError ConsumerGroupsResp :=
  match bc.buildURL ("/kafka/" ++ cluster ++ "/consumer") with
  | .error err => ([], .error err)
  | .ok endpoint =>
    match bc.getJsonReq bc.client.getConsumerGroups endpoint with
    | (evs, .error err) => (evs, .error err)
    | (evs, .ok consumers) =>
      if consumers.Error then (evs, .error (.errorf consumers.Message))
      else (evs, .ok consumers)

def BurrowClient.ListTopics (bc : BurrowClient) (cluster : String) :
    List Event × Except GoError TopicsResp :=
  match bc.buildURL ("/kafka/" ++ cluster ++ "/topic") with
  | .error err => ([], .error err)
  | .ok endpoint =>
    match bc.getJsonReq bc.client.getTopics endpoint with
    | (evs, .error err) => (evs, .error err)
    | (evs, .ok consumerTopics) =>
      if consumerTopics.Error then (evs, .error (.errorf consumerTopics.Message))
      else (evs, .ok consumerTopics)

def BurrowClient.ConsumerGroupLag (bc : BurrowClient) (cluster consumerGroup : String) :
    List Event × Except GoError ConsumerGroupStatusResp :=
  match bc.buildURL ("/kafka/" ++ cluster ++ "/consumer/" ++ consumerGroup ++ "/lag") with
  | .error err => ([], .error err)
  | .ok endpoint =>
    match bc.getJsonReq bc.client.getConsumerGroupStatus endpoint with
    | (evs, .error err) => (evs, .error err)
    | (evs, .ok status) =>
      if status.Error then (evs, .error (.errorf status.Message))
      else (evs, .ok status)

def BurrowClient.ClusterTopicDetails (bc : BurrowClient) (cluster topic : String) :
    List Event × Except GoError ClusterTopicDetailsResp :=
  match bc.buildURL ("/kafka/" ++ cluster ++ "/topic/" ++ topic) with
  | .error err => ([], .error err)
  | .ok endpoint =>
    match bc.getJsonReq bc.client.getClusterTopicDetails endpoint with
    | (evs, .error err) => (evs, .error err)
    | (evs, .ok topicDetails) =>
      if topicDetails.Error then (evs, .error (.errorf topicDetails.Message))
      else (evs, .ok topicDetails)

/-- The constructor `NewBurrowClient`; `net` stands for the `http.Client` it creates. -/
def NewBurrowClient (net : Net) (baseUrl : String) (apiVersion : Int) : BurrowClient :=
  { baseURL := baseUrl ++ "/v" ++ Itoa apiVersion, apiversion := apiVersion, client := net }

/-! ## collector.go -/

/-- The table `Status`. -/
def Status : List (String × Int) :=
  [("NOTFOUND", 1), ("OK", 2), ("WARN", 3), ("ERR", 4), ("STOP", 5), ("STALL", 6), ("REWIND", 7)]

/-- Indexing a Go `map[string]int`, as in `Status[s]`: the value stored under the key, and the
zero value `0` when the key is missing. -/
def mapIndex (m : List (String × Int)) (key : String) : Int :=
  match m.lookup key with
  | some v => v
  | none => 0

def kafkaConsumerPartitionLagDesc : Desc :=
  NewDesc "kafka_burrow_partition_lag"
    "The lag of the latest offset commit on a partition as reported by burrow."
    ["cluster", "group", "topic", "partition"]

def kafkaConsumerPartitionCurrentOffsetDesc : Desc :=
  NewDesc "kafka_burrow_partition_current_offset"
    "The latest offset commit on a partition as reported by burrow."
    ["cluster", "group", "topic", "partition"]

def kafkaConsumerPartitionCurrentStatusDesc : Desc :=
  NewDesc "kafka_burrow_partition_status"
    "The status of a partition as reported by burrow."
    ["cluster", "group", "topic", "partition"]

def kafkaConsumerPartitionMaxOffsetDesc : Desc :=
  NewDesc "kafka_burrow_partition_max_offset"
    "The log end offset on a partition as reported by burrow."
    ["cluster", "group", "topic", "partition"]

def kafkaConsumerTotalLagDesc : Desc :=
  NewDesc "kafka_burrow_total_lag"
    "The total amount of lag for the consumer group as reported by burrow."
    ["cluster", "group"]

def kafkaConsumerStatusDesc : Desc :=
  NewDesc "kafka_burrow_status"
    "The status of a partition as reported by burrow."
    ["cluster", "group"]

def kafkaTopicPartitionOffsetDesc : Desc :=
  NewDesc "kafka_burrow_topic_partition_offset"
    "The latest offset on a topic's partition as reported by burrow."
    ["cluster", "topic", "partition"]

/-- The collector.  Its `mutex` field has no content of its own: locking and unlocking show
up as events of `Collect`. -/
structure Collector where
  client : BurrowClient
  skipPartitionStatus : Bool
  skipConsumerStatus : Bool
  skipPartitionLag : Bool
  skipPartitionCurrentOffset : Bool
  skipPartitionMaxOffset : Bool
  skipTotalLag : Bool
  skipTopicPartitionOffset : Bool

/-- The recurring statement
`if err != nil { log … } else { metrics = append(metrics, metric) }`. -/
def appendMetric (metrics : List Metric) (r : Except GoError Metric) : List Metric :=
  match r with
  | .error _ => metrics
  | .ok metric => metrics ++ [metric]

/-- One round of the partition loop of `processGroup`. -/
def Collector.processGroupPartition (c : Collector) (commonLabels : List String)
    (metrics : List Metric) (partition : Partition) : List Metric :=
  let labels := commonLabels ++ [partition.Topic, Itoa partition.Partition]
  let metrics :=
    if !c.skipPartitionLag then
      appendMetric metrics
        (NewConstMetric kafkaConsumerPartitionLagDesc .GaugeValue
          (float64 partition.CurrentLag) labels)
    else metrics
  let metrics :=
    if !c.skipPartitionCurrentOffset then
      appendMetric metrics
        (NewConstMetric kafkaConsumerPartitionCurrentOffsetDesc .GaugeValue
          (float64 partition.End.Offset) labels)
    else metrics
  let metrics :=
    if !c.skipPartitionStatus then
      appendMetric metrics
        (NewConstMetric kafkaConsumerPartitionCurrentStatusDesc .GaugeValue
          (float64 (mapIndex Status partition.Status)) labels)
    else metrics
  let metrics :=
    if !c.skipPartitionMaxOffset then
      appendMetric metrics
        (NewConstMetric kafkaConsumerPartitionMaxOffsetDesc .GaugeValue
          (float64 partition.End.MaxOffset) labels)
    else metrics
  metrics

def Collector.processGroup (c : Collector) (cluster group : String) :
    List Event × List Metric :=
  match c.client.ConsumerGroupLag cluster group with
  | (evs, .error _) => (evs, [])
  | (evs, .ok resp) =>
    let commonLabels := [resp.Status.Cluster, resp.Status.Group]
    let metrics := resp.Status.Partitions.foldl (c.processGroupPartition commonLabels) []
    let metrics :=
      if !c.skipTotalLag then
        appendMetric metrics
          (NewConstMetric kafkaConsumerTotalLagDesc .GaugeValue
            (float64 resp.Status.TotalLag) commonLabels)
      else metrics
    let metrics :=
      if !c.skipConsumerStatus then
        appendMetric metrics
          (NewConstMetric kafkaConsumerStatusDesc .GaugeValue
            (float64 (mapIndex Status resp.Status.Status)) commonLabels)
      else metrics
    (evs, metrics)

/-- The loop `for i, offset := range details.Offsets` of `processTopic`, from index `i` on. -/
def processTopicLoop (cluster topic : String) :
    Nat → List Int → List Metric → List Metric
  | _, [], metrics => metrics
  | i, offset :: offsets, metrics =>
    let labels := [cluster, topic, Itoa i]
    processTopicLoop cluster topic (i + 1) offsets
      (appendMetric metrics
        (NewConstMetric kafkaTopicPartitionOffsetDesc .GaugeValue (float64 offset) labels))

def Collector.processTopic (c : Collector) (cluster topic : String) :
    List Event × List Metric :=
  match c.client.ClusterTopicDetails cluster topic with
  | (evs, .error _) => (evs, [])
  | (evs, .ok details) =>
    if !c.skipTopicPartitionOffset then
      (evs, processTopicLoop cluster topic 0 details.Offsets [])
    else (evs, [])

/-- One round of a loop of `scrape`: `metrics = append(metrics, produce(name)...)`, together
with the events of the call. -/
def scrapeStep (produce : String → List Event × List Metric)
    (acc : List Event × List Metric) (name : String) : List Event × List Metric :=
  (acc.1 ++ (produce name).1, acc.2 ++ (produce name).2)

def Collector.scrape (c : Collector) (cluster : String) : List Event × List Metric :=
  let listed := c.client.ListConsumers cluster
  let groups : ConsumerGroupsResp :=
    match listed.2 with
    | .error _ => { Error := false, Message := "", ConsumerGroups := [] }
    | .ok groups => groups
  let acc := groups.ConsumerGroups.foldl (scrapeStep (c.processGroup cluster)) (listed.1, [])
  let listed := c.client.ListTopics cluster
  let topics : TopicsResp :=
    match listed.2 with
    | .error _ => { Error := false, Message := "", Topics := [] }
    | .ok topics => topics
  topics.Topics.foldl (scrapeStep (c.processTopic cluster)) (acc.1 ++ listed.1, acc.2)

/-- One round of the outer loop of `Collect`: scrape the cluster, then send each of its
samples to the channel. -/
def Collector.collectStep (c : Collector) (evs : List Event) (cluster : String) : List Event :=
  evs ++ (c.scrape cluster).1 ++ (c.scrape cluster).2.map Event.send

/-- The method `Collect`, as the list of events of one call.  The deferred function unlocks
the mutex on every way out. -/
def Collector.Collect (c : Collector) : List Event :=
  let body :=
    match c.client.ListClusters with
    | (evs, .error _) => evs
    | (evs, .ok clusters) => clusters.Clusters.foldl c.collectStep evs
  [Event.lock] ++ body ++ [Event.unlock]

/-- The map `disabledMetricsSet` after the loop of `NewCollector`, as a lookup function: a
missing key reads as `false`. -/
def disabledMetricsSet (pieces : List String) : String → Bool :=
  pieces.foldl (fun set v key => if key = v then true else set key) (fun _ => false)

/-- The constructor `NewCollector`; `net` stands for the `http.Client` of the new client. -/
def NewCollector (net : Net) (burrowUrl : String) (apiVersion : Int)
    (disabledMetrics : String) : Collector :=
  let set := disabledMetricsSet (splitComma disabledMetrics)
  { client := NewBurrowClient net burrowUrl apiVersion
    skipPartitionStatus := set "partition-status"
    skipConsumerStatus := set "consumer-status"
    skipPartitionLag := set "partition-lag"
    skipPartitionCurrentOffset := set "partition-current-offset"
    skipPartitionMaxOffset := set "partition-max-offset"
    skipTotalLag := set "total-lag"
    skipTopicPartitionOffset := set "topic-partition-offset" }

/-! ## Observations on a list of events -/

/-- The samples sent to the sink, in order. -/
def sent : List Event → List Metric
  | [] => []
  | Event.send m :: evs => m :: sent evs
  | _ :: evs => sent evs

/-- The requests made to the Status Source, in order. -/
def requests : List Event → List String
  | [] => []
  | Event.request url :: evs => url :: requests evs
  | _ :: evs => requests evs

/-- Whether the mutex is held after the events, given whether it was held before them. -/
def heldAfter : Bool → List Event → Bool
  | held, [] => held
  | _, Event.lock :: evs => heldAfter true evs
  | _, Event.unlock :: evs => heldAfter false evs
  | held, _ :: evs => heldAfter held evs

/-- Whether an event is a request to the Status Source. -/
def Event.isRequest : Event → Bool
  | .request _ => true
  | _ => false

/-! ## The results as the specification words them -/

/-- The samples of one partition of a group: the enabled ones among lag, current offset,
status and max offset, in that order, labelled with cluster, group, topic and the decimal
text of the partition number. -/
def partitionSamples (c : Collector) (cluster group : String) (p : Partition) : List Metric :=
  let labels := [cluster, group, p.Topic, Itoa p.Partition]
  (if c.skipPartitionLag then []
    else [⟨kafkaConsumerPartitionLagDesc, .GaugeValue, float64 p.CurrentLag, labels⟩]) ++
  (if c.skipPartitionCurrentOffset then []
    else [⟨kafkaConsumerPartitionCurrentOffsetDesc, .GaugeValue, float64 p.End.Offset, labels⟩]) ++
  (if c.skipPartitionStatus then []
    else [⟨kafkaConsumerPartitionCurrentStatusDesc, .GaugeValue,
            float64 (mapIndex Status p.Status), labels⟩]) ++
  (if c.skipPartitionMaxOffset then []
    else [⟨kafkaConsumerPartitionMaxOffsetDesc, .GaugeValue, float64 p.End.MaxOffset, labels⟩])

/-- The two samples of a group as a whole: the enabled ones among total lag and status, in
that order, labelled with cluster and group. -/
def groupSamples (c : Collector) (st : ConsumerGroupStatus) : List Metric :=
  (if c.skipTotalLag then []
    else [⟨kafkaConsumerTotalLagDesc, .GaugeValue, float64 st.TotalLag, [st.Cluster, st.Group]⟩]) ++
  (if c.skipConsumerStatus then []
    else [⟨kafkaConsumerStatusDesc, .GaugeValue, float64 (mapIndex Status st.Status),
            [st.Cluster, st.Group]⟩])

/-- All samples of a group status: the samples of its partitions in response order, then the
samples of the group as a whole. -/
def expectedGroupSamples (c : Collector) (st : ConsumerGroupStatus) : List Metric :=
  st.Partitions.flatMap (partitionSamples c st.Cluster st.Group) ++ groupSamples c st

/-- The sample of the offset found at position `i` of a topic's offsets. -/
def topicSample (cluster topic : String) (i : Nat) (offset : Int) : Metric :=
  ⟨kafkaTopicPartitionOffsetDesc, .GaugeValue, float64 offset, [cluster, topic, Itoa i]⟩

/-- The samples of a topic: one for each offset, numbered from `0` in response order. -/
def expectedTopicSamples (cluster topic : String) (offsets : List Int) : List Metric :=
  offsets.enum.map (fun io => topicSample cluster topic io.1 io.2)

/-- The groups `scrape` walks through: the listed ones, none when the listing failed. -/
def listedGroups (c : Collector) (cluster : String) : List String :=
  match (c.client.ListConsumers cluster).2 with
  | .error _ => []
  | .ok groups => groups.ConsumerGroups

/-- The topics `scrape` walks through: the listed ones, none when the listing failed. -/
def listedTopics (c : Collector) (cluster : String) : List String :=
  match (c.client.ListTopics cluster).2 with
  | .error _ => []
  | .ok topics => topics.Topics

/-- The descriptor of a metric family, by the name the configuration uses for it. -/
def familyDesc : String → Option Desc
  | "partition-status" => some kafkaConsumerPartitionCurrentStatusDesc
  | "consumer-status" => some kafkaConsumerStatusDesc
  | "partition-lag" => some kafkaConsumerPartitionLagDesc
  | "partition-current-offset" => some kafkaConsumerPartitionCurrentOffsetDesc
  | "partition-max-offset" => some kafkaConsumerPartitionMaxOffsetDesc
  | "total-lag" => some kafkaConsumerTotalLagDesc
  | "topic-partition-offset" => some kafkaTopicPartitionOffsetDesc
  | _ => none

/-- The descriptors of the families a collector has not disabled. -/
def enabledDescs (c : Collector) : List Desc :=
  (if c.skipPartitionLag then [] else [kafkaConsumerPartitionLagDesc]) ++
  (if c.skipPartitionCurrentOffset then [] else [kafkaConsumerPartitionCurrentOffsetDesc]) ++
  (if c.skipPartitionStatus then [] else [kafkaConsumerPartitionCurrentStatusDesc]) ++
  (if c.skipPartitionMaxOffset then [] else [kafkaConsumerPartitionMaxOffsetDesc]) ++
  (if c.skipTotalLag then [] else [kafkaConsumerTotalLagDesc]) ++
  (if c.skipConsumerStatus then [] else [kafkaConsumerStatusDesc]) ++
  (if c.skipTopicPartitionOffset then [] else [kafkaTopicPartitionOffsetDesc])

/-! ## Two callers and one mutex

Two calls of `Collect` run in two goroutines; what happens is one list of events, each marked
with the caller (`false` or `true`) that performed it.  A `sync.Mutex` lets `Lock` return only
while the mutex is free and `Unlock` happen only while it is held. -/

/-- The events of one caller inside a merged list, in order. -/
def eventsOf (caller : Bool) (tr : List (Bool × Event)) : List Event :=
  (tr.filter (fun te => te.1 = caller)).map (fun te => te.2)

/-- The events of one caller, marked with that caller. -/
def tag (caller : Bool) (evs : List Event) : List (Bool × Event) :=
  evs.map (fun e => (caller, e))

/-- Whether a merged list of events is possible for one mutex that is held or not (`held`) at
its start: every `lock` finds the mutex free, every `unlock` finds it held. -/
def mutexRespected : Bool → List (Bool × Event) → Bool
  | _, [] => true
  | held, (_, Event.lock) :: tr => !held && mutexRespected true tr
  | held, (_, Event.unlock) :: tr => held && mutexRespected false tr
  | held, _ :: tr => mutexRespected held tr

/-! ## Concrete upstreams -/

def okResp : BurrowResp := { Error := false, Message := "" }

def zeroOffset : Offset := { Offset := 0, Timestamp := 0, Lag := 0, MaxOffset := 0 }

/-- The partition of the end-to-end example: topic `t1`, partition `0`, status `OK`,
`end.offset = 100`, `end.maxOffset = 110`, `currentLag = 10`. -/
def examplePartition : Partition :=
  { Topic := "t1", Partition := 0, Status := "OK", Start := zeroOffset,
    End := { Offset := 100, Timestamp := 0, Lag := 10, MaxOffset := 110 }, CurrentLag := 10 }

/-- The group status of the end-to-end example: status `WARN`, `totalLag = 42`. -/
def exampleStatus : ConsumerGroupStatus :=
  { Cluster := "prod", Group := "g1", Status := "WARN", MaxLag := examplePartition,
    Partitions := [examplePartition], TotalLag := 42 }

/-- A group of cluster `c1` with one partition whose lag is negative. -/
def okGroupStatus : ConsumerGroupStatus :=
  { Cluster := "c1", Group := "g-ok", Status := "OK", MaxLag := examplePartition,
    Partitions := [{ Topic := "t1", Partition := 1, Status := "STALL", Start := zeroOffset,
                     End := { Offset := 7, Timestamp := 0, Lag := 0, MaxOffset := 5 },
                     CurrentLag := -2 }],
    TotalLag := 0 }

/-- An upstream with three clusters.  `prod` is the end-to-end example (group `g1`, topic
`t1` with offsets `[110]`).  In `c1` the status of group `g-bad` comes back with the error flag
set, group `g-ok` and topic `t1` are fine.  Every call about `down` fails. -/
def exampleNet : Net :=
  { joinURL := fun base endpoint => .ok (base ++ endpoint)
    getClusters := fun url =>
      if url = "http://localhost:8000/v3/kafka" then
        .ok { toBurrowResp := okResp, Clusters := ["prod", "down", "c1"] }
      else .error (.plain "404")
    getConsumerGroups := fun url =>
      if url = "http://localhost:8000/v3/kafka/prod/consumer" then
        .ok { toBurrowResp := okResp, ConsumerGroups := ["g1"] }
      else if url = "http://localhost:8000/v3/kafka/c1/consumer" then
        .ok { toBurrowResp := okResp, ConsumerGroups := ["g-bad", "g-ok"] }
      else .error (.plain "404")
    getTopics := fun url =>
      if url = "http://localhost:8000/v3/kafka/prod/topic" then
        .ok { toBurrowResp := okResp, Topics := ["t1"] }
      else if url = "http://localhost:8000/v3/kafka/c1/topic" then
        .ok { toBurrowResp := okResp, Topics := ["t1"] }
      else .error (.plain "404")
    getConsumerGroupStatus := fun url =>
      if url = "http://localhost:8000/v3/kafka/prod/consumer/g1/lag" then
        .ok { toBurrowResp := okResp, Status := exampleStatus }
      else if url = "http://localhost:8000/v3/kafka/c1/consumer/g-ok/lag" then
        .ok { toBurrowResp := okResp, Status := okGroupStatus }
      else if url = "http://localhost:8000/v3/kafka/c1/consumer/g-bad/lag" then
        .ok { Error := true, Message := "cluster or consumer not found",
              Status := { okGroupStatus with Group := "g-bad" } }
      else .error (.plain "404")
    getClusterTopicDetails := fun url =>
      if url = "http://localhost:8000/v3/kafka/prod/topic/t1" then
        .ok { toBurrowResp := okResp, Offsets := [110] }
      else if url = "http://localhost:8000/v3/kafka/c1/topic/t1" then
        .ok { toBurrowResp := okResp, Offsets := [5, 7] }
      else .error (.plain "404") }

/-- The collector of the end-to-end example, nothing disabled. -/
def exampleCollector : Collector := NewCollector exampleNet "http://localhost:8000" 3 ""

/-- The same upstream without the cluster `down` in its cluster list. -/
def exampleNetWithoutDown : Net :=
  { exampleNet with
    getClusters := fun _ => .ok { toBurrowResp := okResp, Clusters := ["prod", "c1"] } }

def collectorWithoutDown : Collector :=
  NewCollector exampleNetWithoutDown "http://localhost:8000" 3 ""

/-- An upstream whose cluster listing cannot be reached. -/
def unreachableNet : Net :=
  { exampleNet with getClusters := fun _ => .error (.plain "connection refused") }

def unreachableCollector : Collector :=
  NewCollector unreachableNet "http://localhost:8000" 3 ""

/-- The example partition with an end offset of `2^53 + 1`. -/
def hugePartition : Partition :=
  { examplePartition with
    End := { Offset := 9007199254740993, Timestamp := 0, Lag := 10,
             MaxOffset := 9007199254740993 } }

/-- An upstream whose group `g1` has one partition with end offset `2^53 + 1` and whose topic
`t1` has the offsets `2^53 + 1` and `-(2^53 + 1)`. -/
def hugeNet : Net :=
  { exampleNet with
    getConsumerGroupStatus := fun _ =>
      .ok { toBurrowResp := okResp,
            Status := { exampleStatus with Partitions := [hugePartition] } }
    getClusterTopicDetails := fun _ =>
      .ok { toBurrowResp := okResp,
            Offsets := [9007199254740993, -9007199254740993] } }

def hugeCollector : Collector := NewCollector hugeNet "http://localhost:8000" 3 ""

/-- An upstream that answers the status request for group `g1` of cluster `prod` with a body
naming another cluster and another group. -/
def renamingNet : Net :=
  { exampleNet with
    getConsumerGroupStatus := fun _ =>
      .ok { toBurrowResp := okResp,
            Status := { exampleStatus with Cluster := "staging", Group := "g2" } } }

def renamingCollector : Collector := NewCollector renamingNet "http://localhost:8000" 3 ""

/-- An upstream whose bodies all carry the error flag and the message `lag at 100%`. -/
def flaggedNet : Net :=
  { joinURL := fun base endpoint => .ok (base ++ endpoint)
    getClusters := fun _ =>
      .ok { Error := true, Message := "lag at 100%", Clusters := ["prod"] }
    getConsumerGroups := fun _ =>
      .ok { Error := true, Message := "lag at 100%", ConsumerGroups := ["g1"] }
    getTopics := fun _ =>
      .ok { Error := true, Message := "lag at 100%", Topics := ["t1"] }
    getConsumerGroupStatus := fun _ =>
      .ok { Error := true, Message := "lag at 100%", Status := exampleStatus }
    getClusterTopicDetails := fun _ =>
      .ok { Error := true, Message := "lag at 100%", Offsets := [110] } }

def flaggedClient : BurrowClient := NewBurrowClient flaggedNet "http://localhost:8000" 3

/-- A collector with the two group-wide families and the topic family disabled. -/
def partitionOnlyCollector : Collector :=
  NewCollector exampleNet "http://localhost:8000" 3
    "total-lag,consumer-status,topic-partition-offset"

/-! ## Basic facts -/

theorem excessBits_of_lt (fuel n : Nat) (h : n < 2 ^ 53) : excessBits fuel n = 0 := by
  cases fuel with
  | zero => rfl
  | succ k => rw [excessBits, if_pos h]

theorem roundNat_of_lt (n : Nat) (h : n < 2 ^ 53) : roundNat n = n := by
  unfold roundNat
  simp [excessBits_of_lt n n h, Nat.mod_one]

theorem roundNat_of_le (n : Nat) (h : n ≤ 2 ^ 53) : roundNat n = n := by
  rcases Nat.lt_or_eq_of_le h with hlt | heq
  · exact roundNat_of_lt n hlt
  · subst heq
    decide

theorem float64_exact (x : Int) (h1 : -2 ^ 53 ≤ x) (h2 : x ≤ 2 ^ 53) : float64 x = ⟨x⟩ := by
  have hn : x.natAbs ≤ 2 ^ 53 := by omega
  unfold float64
  rw [roundNat_of_le _ hn]
  congr 1
  split <;> omega

theorem excessBits_spec (fuel n : Nat) (h : n < 2 ^ (53 + fuel)) :
    n < 2 ^ (53 + excessBits fuel n)
    ∧ (0 < excessBits fuel n → 2 ^ (52 + excessBits fuel n) ≤ n) := by
  induction fuel generalizing n with
  | zero => simpa [excessBits] using h
  | succ k ih =>
    rw [excessBits]
    by_cases hn : n < 2 ^ 53
    · rw [if_pos hn]
      exact ⟨hn, fun h0 => absurd h0 (Nat.lt_irrefl 0)⟩
    · rw [if_neg hn]
      have hhalf : n / 2 < 2 ^ (53 + k) := by
        have : 2 ^ (53 + (k + 1)) = 2 * 2 ^ (53 + k) := by
          rw [← Nat.add_assoc, Nat.pow_succ, Nat.mul_comm]
        omega
      obtain ⟨hlt, hge⟩ := ih (n / 2) hhalf
      refine ⟨?_, fun _ => ?_⟩
      · have : 2 ^ (53 + (excessBits k (n / 2) + 1)) = 2 * 2 ^ (53 + excessBits k (n / 2)) := by
          rw [← Nat.add_assoc, Nat.pow_succ, Nat.mul_comm]
        omega
      · by_cases he : 0 < excessBits k (n / 2)
        · have h1 := hge he
          have : 2 ^ (52 + (excessBits k (n / 2) + 1)) = 2 * 2 ^ (52 + excessBits k (n / 2)) := by
            rw [← Nat.add_assoc, Nat.pow_succ, Nat.mul_comm]
          omega
        · have he0 : excessBits k (n / 2) = 0 := by omega
          rw [he0]
          have : (2 : Nat) ^ (52 + (0 + 1)) = 2 ^ 53 := by norm_num
          omega

theorem lt_two_pow_self_add (n : Nat) : n < 2 ^ (53 + n) :=
  lt_of_lt_of_le (Nat.lt_two_pow n) (Nat.pow_le_pow_right (by decide) (by omega))

theorem excessBits_self (n : Nat) :
    n < 2 ^ (53 + excessBits n n) ∧ (0 < excessBits n n → 2 ^ (52 + excessBits n n) ≤ n) :=
  excessBits_spec n n (lt_two_pow_self_add n)

theorem roundNat_near (n : Nat) :
    2 ^ excessBits n n ∣ roundNat n
    ∧ 2 * ((roundNat n : Int) - (n : Int)).natAbs ≤ 2 ^ excessBits n n := by
  unfold roundNat
  generalize excessBits n n = e
  have hdiv := Nat.div_add_mod n (2 ^ e)
  have hr : n % 2 ^ e < 2 ^ e := Nat.mod_lt _ (Nat.two_pow_pos e)
  simp only []
  split
  · rename_i hc
    refine ⟨Dvd.intro_left _ rfl, ?_⟩
    have hge : 2 ^ e ≤ 2 * (n % 2 ^ e) := by
      rcases hc with hc | ⟨hc, -⟩ <;> omega
    have : ((n / 2 ^ e + 1) * 2 ^ e : Nat) = n + (2 ^ e - n % 2 ^ e) := by
      rw [Nat.add_mul, Nat.one_mul, Nat.mul_comm]; omega
    push_cast [this]
    omega
  · rename_i hc
    refine ⟨Dvd.intro_left _ rfl, ?_⟩
    have hle : 2 * (n % 2 ^ e) ≤ 2 ^ e := by
      by_contra hcon
      exact hc (Or.inl (by omega))
    have : (n / 2 ^ e * 2 ^ e : Nat) + n % 2 ^ e = n := by
      rw [Nat.mul_comm]; exact hdiv
    omega

theorem processGroupPartition_eq (c : Collector) (cluster group : String)
    (metrics : List Metric) (p : Partition) :
    c.processGroupPartition [cluster, group] metrics p
      = metrics ++ partitionSamples c cluster group p := by
  unfold Collector.processGroupPartition partitionSamples
  cases c.skipPartitionLag <;> cases c.skipPartitionCurrentOffset <;>
    cases c.skipPartitionStatus <;> cases c.skipPartitionMaxOffset <;>
    simp [NewConstMetric, appendMetric, NewDesc, kafkaConsumerPartitionLagDesc,
      kafkaConsumerPartitionCurrentOffsetDesc, kafkaConsumerPartitionCurrentStatusDesc,
      kafkaConsumerPartitionMaxOffsetDesc]

theorem foldl_processGroupPartition (c : Collector) (cluster group : String)
    (ps : List Partition) (metrics : List Metric) :
    ps.foldl (c.processGroupPartition [cluster, group]) metrics
      = metrics ++ ps.flatMap (partitionSamples c cluster group) := by
  induction ps generalizing metrics with
  | nil => simp
  | cons p ps ih =>
    rw [List.foldl_cons, ih, processGroupPartition_eq, List.flatMap_cons, List.append_assoc]

theorem processGroup_ok (c : Collector) (cluster group : String) (evs : List Event)
    (resp : ConsumerGroupStatusResp)
    (h : c.client.ConsumerGroupLag cluster group = (evs, .ok resp)) :
    c.processGroup cluster group = (evs, expectedGroupSamples c resp.Status) := by
  unfold Collector.processGroup
  rw [h]
  simp only [foldl_processGroupPartition, expectedGroupSamples, groupSamples, List.nil_append]
  cases c.skipTotalLag <;> cases c.skipConsumerStatus <;>
    simp [NewConstMetric, appendMetric, NewDesc, kafkaConsumerTotalLagDesc,
      kafkaConsumerStatusDesc]

theorem processGroup_error (c : Collector) (cluster group : String) (evs : List Event)
    (err : GoError) (h : c.client.ConsumerGroupLag cluster group = (evs, .error err)) :
    c.processGroup cluster group = (evs, []) := by
  unfold Collector.processGroup
  rw [h]

theorem processTopicLoop_eq (cluster topic : String) (offsets : List Int) (i : Nat)
    (metrics : List Metric) :
    processTopicLoop cluster topic i offsets metrics
      = metrics ++ (offsets.enumFrom i).map (fun io => topicSample cluster topic io.1 io.2) := by
  induction offsets generalizing i metrics with
  | nil => simp [processTopicLoop]
  | cons o os ih =>
    rw [processTopicLoop, ih]
    simp [NewConstMetric, appendMetric, NewDesc, kafkaTopicPartitionOffsetDesc, topicSample,
      List.enumFrom_cons]

theorem processTopic_ok (c : Collector) (cluster topic : String) (evs : List Event)
    (details : ClusterTopicDetailsResp)
    (h : c.client.ClusterTopicDetails cluster topic = (evs, .ok details)) :
    c.processTopic cluster topic
      = (evs, if c.skipTopicPartitionOffset then []
              else expectedTopicSamples cluster topic details.Offsets) := by
  unfold Collector.processTopic
  rw [h]
  cases c.skipTopicPartitionOffset <;>
    simp [processTopicLoop_eq, expectedTopicSamples, List.enum]

theorem processTopic_error (c : Collector) (cluster topic : String) (evs : List Event)
    (err : GoError) (h : c.client.ClusterTopicDetails cluster topic = (evs, .error err)) :
    c.processTopic cluster topic = (evs, []) := by
  unfold Collector.processTopic
  rw [h]

theorem foldl_scrapeStep (produce : String → List Event × List Metric) (names : List String)
    (acc : List Event × List Metric) :
    names.foldl (scrapeStep produce) acc
      = (acc.1 ++ names.flatMap (fun n => (produce n).1),
         acc.2 ++ names.flatMap (fun n => (produce n).2)) := by
  induction names generalizing acc with
  | nil => simp
  | cons n ns ih => simp [List.foldl_cons, ih, scrapeStep, List.append_assoc]

theorem scrape_eq (c : Collector) (cluster : String) :
    c.scrape cluster
      = ((c.client.ListConsumers cluster).1
            ++ (listedGroups c cluster).flatMap (fun g => (c.processGroup cluster g).1)
            ++ (c.client.ListTopics cluster).1
            ++ (listedTopics c cluster).flatMap (fun t => (c.processTopic cluster t).1),
          (listedGroups c cluster).flatMap (fun g => (c.processGroup cluster g).2)
            ++ (listedTopics c cluster).flatMap (fun t => (c.processTopic cluster t).2)) := by
  unfold Collector.scrape listedGroups listedTopics
  simp only [foldl_scrapeStep]
  cases (c.client.ListConsumers cluster).2 <;> cases (c.client.ListTopics cluster).2 <;> simp

theorem foldl_collectStep (c : Collector) (clusters : List String) (evs : List Event) :
    clusters.foldl c.collectStep evs
      = evs ++ clusters.flatMap
          (fun k => (c.scrape k).1 ++ (c.scrape k).2.map Event.send) := by
  induction clusters generalizing evs with
  | nil => simp
  | cons k ks ih => simp [List.foldl_cons, ih, Collector.collectStep, List.append_assoc]

/-! ## Events -/

theorem sent_append (a b : List Event) : sent (a ++ b) = sent a ++ sent b := by
  induction a with
  | nil => rfl
  | cons e a ih => cases e <;> simp [sent, ih]

theorem sent_map_send (ms : List Metric) : sent (ms.map Event.send) = ms := by
  induction ms with
  | nil => rfl
  | cons m ms ih => simp [sent, ih]

theorem sent_of_requests (evs : List Event) (h : ∀ e ∈ evs, e.isRequest = true) :
    sent evs = [] := by
  induction evs with
  | nil => rfl
  | cons e evs ih =>
    have he := h e (List.mem_cons_self _ _)
    have ih := ih (fun e he => h e (List.mem_cons_of_mem _ he))
    cases e <;> simp_all [sent, Event.isRequest]

theorem requests_append (a b : List Event) : requests (a ++ b) = requests a ++ requests b := by
  induction a with
  | nil => rfl
  | cons e a ih => cases e <;> simp [requests, ih]

theorem heldAfter_append (a b : List Event) (held : Bool) :
    heldAfter held (a ++ b) = heldAfter (heldAfter held a) b := by
  induction a generalizing held with
  | nil => rfl
  | cons e a ih => cases e <;> simp [heldAfter, ih]

theorem ListClusters_events (bc : BurrowClient) : ∀ e ∈ bc.ListClusters.1, e.isRequest = true := by
  unfold BurrowClient.ListClusters BurrowClient.getJsonReq
  rcases hb : bc.buildURL "/kafka" with err | endpoint
  · simp
  · rcases hg : bc.client.getClusters endpoint with err | r
    · simp [hg, Event.isRequest]
    · by_cases hr : r.Error <;> simp [hr, hg, Event.isRequest]

theorem ListConsumers_events (bc : BurrowClient) (cluster : String) :
    ∀ e ∈ (bc.ListConsumers cluster).1, e.isRequest = true := by
  unfold BurrowClient.ListConsumers BurrowClient.getJsonReq
  rcases hb : bc.buildURL ("/kafka/" ++ cluster ++ "/consumer") with err | endpoint
  · simp
  · rcases hg : bc.client.getConsumerGroups endpoint with err | r
    · simp [hg, Event.isRequest]
    · by_cases hr : r.Error <;> simp [hr, hg, Event.isRequest]

theorem ListTopics_events (bc : BurrowClient) (cluster : String) :
    ∀ e ∈ (bc.ListTopics cluster).1, e.isRequest = true := by
  unfold BurrowClient.ListTopics BurrowClient.getJsonReq
  rcases hb : bc.buildURL ("/kafka/" ++ cluster ++ "/topic") with err | endpoint
  · simp
  · rcases hg : bc.client.getTopics endpoint with err | r
    · simp [hg, Event.isRequest]
    · by_cases hr : r.Error <;> simp [hr, hg, Event.isRequest]

theorem ConsumerGroupLag_events (bc : BurrowClient) (cluster group : String) :
    ∀ e ∈ (bc.ConsumerGroupLag cluster group).1, e.isRequest = true := by
  unfold BurrowClient.ConsumerGroupLag BurrowClient.getJsonReq
  rcases hb : bc.buildURL ("/kafka/" ++ cluster ++ "/consumer/" ++ group ++ "/lag") with err | endpoint
  · simp
  · rcases hg : bc.client.getConsumerGroupStatus endpoint with err | r
    · simp [hg, Event.isRequest]
    · by_cases hr : r.Error <;> simp [hr, hg, Event.isRequest]

theorem ClusterTopicDetails_events (bc : BurrowClient) (cluster topic : String) :
    ∀ e ∈ (bc.ClusterTopicDetails cluster topic).1, e.isRequest = true := by
  unfold BurrowClient.ClusterTopicDetails BurrowClient.getJsonReq
  rcases hb : bc.buildURL ("/kafka/" ++ cluster ++ "/topic/" ++ topic) with err | endpoint
  · simp
  · rcases hg : bc.client.getClusterTopicDetails endpoint with err | r
    · simp [hg, Event.isRequest]
    · by_cases hr : r.Error <;> simp [hr, hg, Event.isRequest]

theorem processGroup_events (c : Collector) (cluster group : String) :
    (c.processGroup cluster group).1 = (c.client.ConsumerGroupLag cluster group).1 := by
  unfold Collector.processGroup
  rcases h : c.client.ConsumerGroupLag cluster group with ⟨evs, r⟩
  cases r <;> rfl

theorem processTopic_events (c : Collector) (cluster topic : String) :
    (c.processTopic cluster topic).1 = (c.client.ClusterTopicDetails cluster topic).1 := by
  unfold Collector.processTopic
  rcases h : c.client.ClusterTopicDetails cluster topic with ⟨evs, r⟩
  cases r with
  | error err => rfl
  | ok d => cases c.skipTopicPartitionOffset <;> rfl

theorem scrape_events (c : Collector) (cluster : String) :
    ∀ e ∈ (c.scrape cluster).1, e.isRequest = true := by
  intro e he
  rw [scrape_eq] at he
  simp only [List.mem_append, List.mem_flatMap] at he
  rcases he with ((he | ⟨g, -, he⟩) | he) | ⟨t, -, he⟩
  · exact ListConsumers_events _ _ e he
  · rw [processGroup_events] at he
    exact ConsumerGroupLag_events _ _ _ e he
  · exact ListTopics_events _ _ e he
  · rw [processTopic_events] at he
    exact ClusterTopicDetails_events _ _ _ e he

theorem sent_flatMap_scrape (c : Collector) (clusters : List String) :
    sent (clusters.flatMap (fun k => (c.scrape k).1 ++ (c.scrape k).2.map Event.send))
      = clusters.flatMap (fun k => (c.scrape k).2) := by
  induction clusters with
  | nil => rfl
  | cons k ks ih =>
    simp only [List.flatMap_cons, sent_append, ih, sent_map_send,
      sent_of_requests _ (scrape_events c k), List.nil_append]

theorem Collect_ok (c : Collector) (evs : List Event) (clusters : ClustersResp)
    (h : c.client.ListClusters = (evs, .ok clusters)) :
    c.Collect = [Event.lock] ++ (evs ++ clusters.Clusters.flatMap
        (fun k => (c.scrape k).1 ++ (c.scrape k).2.map Event.send)) ++ [Event.unlock] := by
  unfold Collector.Collect
  rw [h]
  simp only [foldl_collectStep]

theorem Collect_error (c : Collector) (evs : List Event) (err : GoError)
    (h : c.client.ListClusters = (evs, .error err)) :
    c.Collect = [Event.lock] ++ evs ++ [Event.unlock] := by
  unfold Collector.Collect
  rw [h]

/-! ## The status mapper -/

/-- C1: the lookup `Status[s]` is defined for every string: it gives 1, 2, 3, 4, 5, 6, 7 for
NOTFOUND, OK, WARN, ERR, STOP, STALL, REWIND, and 0 for every other string, the empty string
and the lower-case spelling `ok` among them; every result lies between 0 and 7. -/
theorem status_mapper_total :
    mapIndex Status "NOTFOUND" = 1 ∧ mapIndex Status "OK" = 2 ∧ mapIndex Status "WARN" = 3 ∧
    mapIndex Status "ERR" = 4 ∧ mapIndex Status "STOP" = 5 ∧ mapIndex Status "STALL" = 6 ∧
    mapIndex Status "REWIND" = 7 ∧
    (∀ s : String, s ∉ ["NOTFOUND", "OK", "WARN", "ERR", "STOP", "STALL", "REWIND"] →
      mapIndex Status s = 0) ∧
    mapIndex Status "" = 0 ∧ mapIndex Status "ok" = 0 ∧
    (∀ s : String, 0 ≤ mapIndex Status s ∧ mapIndex Status s ≤ 7) := by
  have other : ∀ s : String,
      s ∉ ["NOTFOUND", "OK", "WARN", "ERR", "STOP", "STALL", "REWIND"] →
        mapIndex Status s = 0 := by
    intro s hs
    simp only [List.mem_cons, List.mem_singleton, List.not_mem_nil, or_false, not_or] at hs
    obtain ⟨h1, h2, h3, h4, h5, h6, h7⟩ := hs
    have e1 : (s == "NOTFOUND") = false := by simpa using h1
    have e2 : (s == "OK") = false := by simpa using h2
    have e3 : (s == "WARN") = false := by simpa using h3
    have e4 : (s == "ERR") = false := by simpa using h4
    have e5 : (s == "STOP") = false := by simpa using h5
    have e6 : (s == "STALL") = false := by simpa using h6
    have e7 : (s == "REWIND") = false := by simpa using h7
    simp only [mapIndex, Status, List.lookup, e1, e2, e3, e4, e5, e6, e7]
  refine ⟨by decide, by decide, by decide, by decide, by decide, by decide, by decide, other,
    by decide, by decide, ?_⟩
  intro s
  by_cases hs : s ∈ ["NOTFOUND", "OK", "WARN", "ERR", "STOP", "STALL", "REWIND"]
  · simp only [List.mem_cons, List.mem_singleton, List.not_mem_nil, or_false] at hs
    rcases hs with rfl | rfl | rfl | rfl | rfl | rfl | rfl <;> decide
  · rw [other s hs]; decide

/-- C1, on a concrete input: `Ok` is none of the seven spellings and maps to 0. -/
theorem status_mapper_total_witness :
    "Ok" ∉ ["NOTFOUND", "OK", "WARN", "ERR", "STOP", "STALL", "REWIND"] ∧
    mapIndex Status "Ok" = 0 :=
  ⟨by decide, status_mapper_total.2.2.2.2.2.2.2.1 "Ok" (by decide)⟩

/-! ## The per-group producer -/

theorem length_partitionSamples (c : Collector) (cluster group : String) (p : Partition)
    (h1 : c.skipPartitionLag = false) (h2 : c.skipPartitionCurrentOffset = false)
    (h3 : c.skipPartitionStatus = false) (h4 : c.skipPartitionMaxOffset = false) :
    (partitionSamples c cluster group p).length = 4 := by
  simp [partitionSamples, h1, h2, h3, h4]

theorem length_flatMap_partitionSamples (c : Collector) (cluster group : String)
    (ps : List Partition)
    (h1 : c.skipPartitionLag = false) (h2 : c.skipPartitionCurrentOffset = false)
    (h3 : c.skipPartitionStatus = false) (h4 : c.skipPartitionMaxOffset = false) :
    (ps.flatMap (partitionSamples c cluster group)).length = 4 * ps.length := by
  induction ps with
  | nil => rfl
  | cons p ps ih =>
    rw [List.flatMap_cons, List.length_append, ih,
      length_partitionSamples c cluster group p h1 h2 h3 h4, List.length_cons]
    omega

/-- C5, as the code has it: after a successful group-status response, `processGroup` returns,
for each partition in response order, the enabled ones among lag (`currentLag`), current
offset (`end.offset`), status (mapped ordinal) and max offset (`end.maxOffset`), each with
four label values ending in the partition's topic and the decimal text of its number, then
the enabled ones among total lag and group status, each with two label values.  With nothing
disabled these are `4n + 2` samples.  Every value is the `float64` conversion of the integer
named, which is that integer itself, whatever its sign, when its magnitude is at most
`2^53`. -/
theorem processGroup_samples (c : Collector) (cluster group : String) (evs : List Event)
    (resp : ConsumerGroupStatusResp)
    (h : c.client.ConsumerGroupLag cluster group = (evs, .ok resp)) :
    (c.processGroup cluster group).2
        = resp.Status.Partitions.flatMap
            (partitionSamples c resp.Status.Cluster resp.Status.Group)
          ++ groupSamples c resp.Status
    ∧ (c.skipPartitionLag = false → c.skipPartitionCurrentOffset = false →
        c.skipPartitionStatus = false → c.skipPartitionMaxOffset = false →
        c.skipTotalLag = false → c.skipConsumerStatus = false →
        (c.processGroup cluster group).2
            = resp.Status.Partitions.flatMap (fun p =>
                [ ⟨kafkaConsumerPartitionLagDesc, .GaugeValue, float64 p.CurrentLag,
                    [resp.Status.Cluster, resp.Status.Group, p.Topic, Itoa p.Partition]⟩,
                  ⟨kafkaConsumerPartitionCurrentOffsetDesc, .GaugeValue, float64 p.End.Offset,
                    [resp.Status.Cluster, resp.Status.Group, p.Topic, Itoa p.Partition]⟩,
                  ⟨kafkaConsumerPartitionCurrentStatusDesc, .GaugeValue,
                    float64 (mapIndex Status p.Status),
                    [resp.Status.Cluster, resp.Status.Group, p.Topic, Itoa p.Partition]⟩,
                  ⟨kafkaConsumerPartitionMaxOffsetDesc, .GaugeValue, float64 p.End.MaxOffset,
                    [resp.Status.Cluster, resp.Status.Group, p.Topic, Itoa p.Partition]⟩ ])
              ++ [ ⟨kafkaConsumerTotalLagDesc, .GaugeValue, float64 resp.Status.TotalLag,
                     [resp.Status.Cluster, resp.Status.Group]⟩,
                   ⟨kafkaConsumerStatusDesc, .GaugeValue,
                     float64 (mapIndex Status resp.Status.Status),
                     [resp.Status.Cluster, resp.Status.Group]⟩ ]
          ∧ (c.processGroup cluster group).2.length = 4 * resp.Status.Partitions.length + 2)
    ∧ (∀ x : Int, -2 ^ 53 ≤ x → x ≤ 2 ^ 53 → float64 x = ⟨x⟩) := by
  have hp := processGroup_ok c cluster group evs resp h
  refine ⟨by rw [hp]; rfl, ?_, float64_exact⟩
  intro h1 h2 h3 h4 h5 h6
  rw [hp]
  refine ⟨?_, ?_⟩
  · have hfun : partitionSamples c resp.Status.Cluster resp.Status.Group = fun p =>
        [ ⟨kafkaConsumerPartitionLagDesc, .GaugeValue, float64 p.CurrentLag,
            [resp.Status.Cluster, resp.Status.Group, p.Topic, Itoa p.Partition]⟩,
          ⟨kafkaConsumerPartitionCurrentOffsetDesc, .GaugeValue, float64 p.End.Offset,
            [resp.Status.Cluster, resp.Status.Group, p.Topic, Itoa p.Partition]⟩,
          ⟨kafkaConsumerPartitionCurrentStatusDesc, .GaugeValue,
            float64 (mapIndex Status p.Status),
            [resp.Status.Cluster, resp.Status.Group, p.Topic, Itoa p.Partition]⟩,
          ⟨kafkaConsumerPartitionMaxOffsetDesc, .GaugeValue, float64 p.End.MaxOffset,
            [resp.Status.Cluster, resp.Status.Group, p.Topic, Itoa p.Partition]⟩ ] := by
      funext p
      simp [partitionSamples, h1, h2, h3, h4]
    simp [expectedGroupSamples, groupSamples, hfun, h5, h6]
  · simp only [expectedGroupSamples, List.length_append,
      length_flatMap_partitionSamples c _ _ _ h1 h2 h3 h4]
    simp [groupSamples, h5, h6]

/-- C5, as the code has it, on the end-to-end example: group `g1` of cluster `prod` yields
lag 10, current offset 100, status 2, max offset 110 for partition `0` of `t1`, then total
lag 42 and group status 3; and a lag of `-2` is sent as `-2`. -/
theorem processGroup_samples_witness :
    exampleCollector.client.ConsumerGroupLag "prod" "g1"
        = ([Event.request "http://localhost:8000/v3/kafka/prod/consumer/g1/lag"],
            .ok { toBurrowResp := okResp, Status := exampleStatus })
    ∧ (exampleCollector.processGroup "prod" "g1").2
        = [ ⟨kafkaConsumerPartitionLagDesc, .GaugeValue, ⟨10⟩, ["prod", "g1", "t1", "0"]⟩,
            ⟨kafkaConsumerPartitionCurrentOffsetDesc, .GaugeValue, ⟨100⟩,
              ["prod", "g1", "t1", "0"]⟩,
            ⟨kafkaConsumerPartitionCurrentStatusDesc, .GaugeValue, ⟨2⟩,
              ["prod", "g1", "t1", "0"]⟩,
            ⟨kafkaConsumerPartitionMaxOffsetDesc, .GaugeValue, ⟨110⟩,
              ["prod", "g1", "t1", "0"]⟩,
            ⟨kafkaConsumerTotalLagDesc, .GaugeValue, ⟨42⟩, ["prod", "g1"]⟩,
            ⟨kafkaConsumerStatusDesc, .GaugeValue, ⟨3⟩, ["prod", "g1"]⟩ ]
    ∧ (exampleCollector.processGroup "prod" "g1").2.length = 4 * 1 + 2
    ∧ float64 (-2) = ⟨-2⟩ :=
  ⟨rfl,
   ((processGroup_samples exampleCollector "prod" "g1" _ _ rfl).2.1
      rfl rfl rfl rfl rfl rfl).1.trans (by decide),
   ((processGroup_samples exampleCollector "prod" "g1" _ _ rfl).2.1
      rfl rfl rfl rfl rfl rfl).2,
   (processGroup_samples exampleCollector "prod" "g1" _ _ rfl).2.2 (-2)
      (by decide) (by decide)⟩

/-- C5, as stated, fails: a partition with `end.offset = end.maxOffset = 2^53 + 1` gets the
values `2^53` for its current offset and max offset, not the integers of the response. -/
theorem processGroup_values_counterexample :
    hugeCollector.client.ConsumerGroupLag "prod" "g1"
        = ([Event.request "http://localhost:8000/v3/kafka/prod/consumer/g1/lag"],
            .ok { toBurrowResp := okResp,
                  Status := { exampleStatus with Partitions := [hugePartition] } })
    ∧ hugePartition.End.Offset = 9007199254740993
    ∧ hugePartition.End.MaxOffset = 9007199254740993
    ∧ (hugeCollector.processGroup "prod" "g1").2.map (fun m => m.value.toInt)
        = [10, 9007199254740992, 2, 9007199254740992, 42, 3]
    ∧ ¬ ((hugeCollector.processGroup "prod" "g1").2.map (fun m => m.value.toInt)
        = [10, 9007199254740993, 2, 9007199254740993, 42, 3]) :=
  ⟨rfl, rfl, rfl, by decide, by decide⟩

theorem labels_partitionSamples (c : Collector) (cluster group : String) (p : Partition) :
    ∀ m ∈ partitionSamples c cluster group p, m.labelValues.take 2 = [cluster, group] := by
  intro m hm
  unfold partitionSamples at hm
  simp only [List.mem_append] at hm
  rcases hm with ((hm | hm) | hm) | hm <;>
    · split at hm
      · simp at hm
      · rw [List.mem_singleton] at hm
        subst hm
        rfl

theorem labels_groupSamples (c : Collector) (st : ConsumerGroupStatus) :
    ∀ m ∈ groupSamples c st, m.labelValues.take 2 = [st.Cluster, st.Group] := by
  intro m hm
  unfold groupSamples at hm
  simp only [List.mem_append] at hm
  rcases hm with hm | hm <;>
    · split at hm
      · simp at hm
      · rw [List.mem_singleton] at hm
        subst hm
        rfl

/-- C6, as the code has it: after a successful group-status response every sample of
`processGroup` carries as its first two label values the `cluster` and `group` fields of the
response body; they are the names the producer was called with when the body repeats them. -/
theorem processGroup_labels_from_response (c : Collector) (cluster group : String)
    (evs : List Event) (resp : ConsumerGroupStatusResp)
    (h : c.client.ConsumerGroupLag cluster group = (evs, .ok resp)) :
    (∀ m ∈ (c.processGroup cluster group).2,
      m.labelValues.take 2 = [resp.Status.Cluster, resp.Status.Group])
    ∧ (resp.Status.Cluster = cluster → resp.Status.Group = group →
        ∀ m ∈ (c.processGroup cluster group).2, m.labelValues.take 2 = [cluster, group]) := by
  have main : ∀ m ∈ (c.processGroup cluster group).2,
      m.labelValues.take 2 = [resp.Status.Cluster, resp.Status.Group] := by
    intro m hm
    rw [processGroup_ok c cluster group evs resp h] at hm
    simp only [expectedGroupSamples, List.mem_append, List.mem_flatMap] at hm
    rcases hm with ⟨p, -, hm⟩ | hm
    · exact labels_partitionSamples c _ _ p m hm
    · exact labels_groupSamples c _ m hm
  refine ⟨main, ?_⟩
  intro hc hg m hm
  rw [← hc, ← hg]
  exact main m hm

/-- C6, as the code has it, on a concrete input: asked for group `g1` of cluster `prod`, an
upstream answering with the names `staging` and `g2` gets every sample labelled `staging`,
`g2`. -/
theorem processGroup_labels_from_response_witness :
    renamingCollector.client.ConsumerGroupLag "prod" "g1"
        = ([Event.request "http://localhost:8000/v3/kafka/prod/consumer/g1/lag"],
            .ok { toBurrowResp := okResp,
                  Status := { exampleStatus with Cluster := "staging", Group := "g2" } })
    ∧ ∀ m ∈ (renamingCollector.processGroup "prod" "g1").2,
        m.labelValues.take 2 = ["staging", "g2"] :=
  ⟨rfl, (processGroup_labels_from_response renamingCollector "prod" "g1" _ _ rfl).1⟩

/-- C6, as stated, fails: the status request for group `g1` of cluster `prod` succeeds, the
body names cluster `staging` and group `g2`, and the samples do not carry `prod`, `g1`. -/
theorem processGroup_labels_counterexample :
    renamingCollector.client.ConsumerGroupLag "prod" "g1"
        = ([Event.request "http://localhost:8000/v3/kafka/prod/consumer/g1/lag"],
            .ok { toBurrowResp := okResp,
                  Status := { exampleStatus with Cluster := "staging", Group := "g2" } })
    ∧ ¬ (∀ m ∈ (renamingCollector.processGroup "prod" "g1").2,
          m.labelValues.take 2 = ["prod", "g1"]) :=
  ⟨rfl, by decide⟩

/-! ## The per-topic producer -/

theorem length_expectedTopicSamples (cluster topic : String) (offsets : List Int) :
    (expectedTopicSamples cluster topic offsets).length = offsets.length := by
  simp [expectedTopicSamples]

theorem getElem?_expectedTopicSamples (cluster topic : String) (offsets : List Int) (i : Nat)
    (o : Int) (h : offsets[i]? = some o) :
    (expectedTopicSamples cluster topic offsets)[i]? = some (topicSample cluster topic i o) := by
  simp [expectedTopicSamples, List.getElem?_map, List.enum, List.getElem?_enumFrom, h]

/-- C7, as the code has it: after a successful topic-offsets response with offsets
`o_0 … o_{n-1}` and the topic-partition-offset family enabled, `processTopic c t` returns
exactly `n` samples of that family, the `i`-th with label values `c`, `t`, decimal text of
`i` and value the `float64` conversion of `o_i`, which is `o_i` itself when its magnitude is
at most `2^53`; with the family disabled it returns nothing; when the request fails it
returns nothing. -/
theorem processTopic_samples (c : Collector) (cluster topic : String) :
    (∀ evs details, c.client.ClusterTopicDetails cluster topic = (evs, .ok details) →
      c.skipTopicPartitionOffset = false →
        (c.processTopic cluster topic).2.length = details.Offsets.length
        ∧ (∀ (i : Nat) (o : Int), details.Offsets[i]? = some o →
            (c.processTopic cluster topic).2[i]?
              = some (Metric.mk kafkaTopicPartitionOffsetDesc .GaugeValue (float64 o)
                      [cluster, topic, Itoa i]))
        ∧ (∀ (i : Nat) (o : Int), details.Offsets[i]? = some o → -2 ^ 53 ≤ o → o ≤ 2 ^ 53 →
            (c.processTopic cluster topic).2[i]?
              = some (Metric.mk kafkaTopicPartitionOffsetDesc .GaugeValue ⟨o⟩
                      [cluster, topic, Itoa i])))
    ∧ (∀ evs details, c.client.ClusterTopicDetails cluster topic = (evs, .ok details) →
        c.skipTopicPartitionOffset = true → (c.processTopic cluster topic).2 = [])
    ∧ (∀ evs err, c.client.ClusterTopicDetails cluster topic = (evs, .error err) →
        (c.processTopic cluster topic).2 = []) := by
  refine ⟨?_, ?_, ?_⟩
  · intro evs details h hs
    rw [processTopic_ok c cluster topic evs details h]
    simp only [hs, Bool.false_eq_true, if_false]
    refine ⟨length_expectedTopicSamples _ _ _,
      fun i o ho => getElem?_expectedTopicSamples cluster topic _ i o ho, ?_⟩
    intro i o ho h1 h2
    rw [getElem?_expectedTopicSamples cluster topic _ i o ho, topicSample,
      float64_exact o h1 h2]
  · intro evs details h hs
    rw [processTopic_ok c cluster topic evs details h]
    simp [hs]
  · intro evs err h
    rw [processTopic_error c cluster topic evs err h]

/-- C7, as the code has it, on the end-to-end example: offsets `[110]` of topic `t1` in
cluster `prod` give the single sample `(prod, t1, 0) = 110`. -/
theorem processTopic_samples_witness :
    exampleCollector.client.ClusterTopicDetails "prod" "t1"
        = ([Event.request "http://localhost:8000/v3/kafka/prod/topic/t1"],
            .ok { toBurrowResp := okResp, Offsets := [110] })
    ∧ exampleCollector.skipTopicPartitionOffset = false
    ∧ (exampleCollector.processTopic "prod" "t1").2.length = 1
    ∧ (exampleCollector.processTopic "prod" "t1").2[0]?
        = some (Metric.mk kafkaTopicPartitionOffsetDesc .GaugeValue ⟨110⟩
                  ["prod", "t1", "0"]) :=
  ⟨rfl, rfl,
   ((processTopic_samples exampleCollector "prod" "t1").1 _ _ rfl rfl).1,
   ((processTopic_samples exampleCollector "prod" "t1").1 _ _ rfl rfl).2.2 0 110 rfl
      (by decide) (by decide)⟩

/-- C7, as stated, fails: the offsets `2^53 + 1` and `-(2^53 + 1)` of a topic are sent with
the values `2^53` and `-2^53`. -/
theorem processTopic_values_counterexample :
    hugeCollector.client.ClusterTopicDetails "prod" "t1"
        = ([Event.request "http://localhost:8000/v3/kafka/prod/topic/t1"],
            .ok { toBurrowResp := okResp,
                  Offsets := [9007199254740993, -9007199254740993] })
    ∧ hugeCollector.skipTopicPartitionOffset = false
    ∧ (hugeCollector.processTopic "prod" "t1").2.map (fun m => m.value.toInt)
        = [9007199254740992, -9007199254740992]
    ∧ ¬ ((hugeCollector.processTopic "prod" "t1").2.map (fun m => m.value.toInt)
        = [9007199254740993, -9007199254740993]) :=
  ⟨rfl, rfl, by decide, by decide⟩

/-! ## The cluster orchestrator -/

theorem infix_flatMap_of_mem {α β : Type} (f : α → List β) (l : List α) (a : α) (h : a ∈ l) :
    f a <:+: l.flatMap f := by
  obtain ⟨s, t, rfl⟩ := List.append_of_mem h
  exact ⟨s.flatMap f, t.flatMap f, by simp [List.flatMap_append, List.append_assoc]⟩

theorem listedGroups_of_error (c : Collector) (cluster : String) (evs : List Event)
    (err : GoError) (h : c.client.ListConsumers cluster = (evs, .error err)) :
    listedGroups c cluster = [] := by
  simp [listedGroups, h]

theorem listedTopics_of_error (c : Collector) (cluster : String) (evs : List Event)
    (err : GoError) (h : c.client.ListTopics cluster = (evs, .error err)) :
    listedTopics c cluster = [] := by
  simp [listedTopics, h]

theorem scrape_metrics (c : Collector) (cluster : String) :
    (c.scrape cluster).2
      = (listedGroups c cluster).flatMap (fun g => (c.processGroup cluster g).2)
        ++ (listedTopics c cluster).flatMap (fun t => (c.processTopic cluster t).2) := by
  rw [scrape_eq]

/-- C4: `scrape` is a fail-soft fold.  Its samples are the samples of `processGroup` for each
listed group, in listing order, followed by the samples of `processTopic` for each listed
topic, in listing order; a listing that fails counts as the empty list and a group or topic
whose detail call fails contributes nothing.  So the samples of every listed group appear as
one block of the result, the topic samples are its tail, and when the group listing fails
the result is exactly the topic samples. -/
theorem scrape_fail_soft_fold (c : Collector) (cluster : String) :
    (c.scrape cluster).2
        = (listedGroups c cluster).flatMap (fun g => (c.processGroup cluster g).2)
          ++ (listedTopics c cluster).flatMap (fun t => (c.processTopic cluster t).2)
    ∧ (∀ evs groups, c.client.ListConsumers cluster = (evs, .ok groups) →
        listedGroups c cluster = groups.ConsumerGroups)
    ∧ (∀ evs err, c.client.ListConsumers cluster = (evs, .error err) →
        listedGroups c cluster = []
        ∧ (c.scrape cluster).2
            = (listedTopics c cluster).flatMap (fun t => (c.processTopic cluster t).2))
    ∧ (∀ evs topics, c.client.ListTopics cluster = (evs, .ok topics) →
        listedTopics c cluster = topics.Topics)
    ∧ (∀ evs err, c.client.ListTopics cluster = (evs, .error err) →
        listedTopics c cluster = [])
    ∧ (∀ g evs err, c.client.ConsumerGroupLag cluster g = (evs, .error err) →
        (c.processGroup cluster g).2 = [])
    ∧ (∀ t evs err, c.client.ClusterTopicDetails cluster t = (evs, .error err) →
        (c.processTopic cluster t).2 = [])
    ∧ (∀ g ∈ listedGroups c cluster, (c.processGroup cluster g).2 <:+: (c.scrape cluster).2)
    ∧ ((listedTopics c cluster).flatMap (fun t => (c.processTopic cluster t).2)
        <:+ (c.scrape cluster).2) := by
  refine ⟨scrape_metrics c cluster, ?_, ?_, ?_, ?_, ?_, ?_, ?_, ?_⟩
  · intro evs groups h
    simp [listedGroups, h]
  · intro evs err h
    have hl := listedGroups_of_error c cluster evs err h
    refine ⟨hl, ?_⟩
    rw [scrape_metrics, hl]
    rfl
  · intro evs topics h
    simp [listedTopics, h]
  · intro evs err h
    exact listedTopics_of_error c cluster evs err h
  · intro g evs err h
    rw [processGroup_error c cluster g evs err h]
  · intro t evs err h
    rw [processTopic_error c cluster t evs err h]
  · intro g hg
    rw [scrape_metrics]
    exact (infix_flatMap_of_mem (fun g => (c.processGroup cluster g).2) _ g hg).trans
      (List.prefix_append _ _).isInfix
  · rw [scrape_metrics]
    exact List.suffix_append _ _

/-- C4, on a concrete input: in cluster `c1` the status call of `g-bad` fails and that of
`g-ok` succeeds; the result is the four samples of `g-ok` and its two group samples followed
by the two samples of topic `t1`, and nothing else. -/
theorem scrape_fail_soft_fold_witness :
    exampleCollector.client.ConsumerGroupLag "c1" "g-bad"
        = ([Event.request "http://localhost:8000/v3/kafka/c1/consumer/g-bad/lag"],
            .error (.errorf "cluster or consumer not found"))
    ∧ (exampleCollector.processGroup "c1" "g-bad").2 = []
    ∧ (exampleCollector.scrape "c1").2
        = (exampleCollector.processGroup "c1" "g-ok").2
          ++ (exampleCollector.processTopic "c1" "t1").2
    ∧ (exampleCollector.scrape "c1").2.length = 8 :=
  ⟨rfl, (scrape_fail_soft_fold exampleCollector "c1").2.2.2.2.2.1 "g-bad" _ _ rfl,
   (scrape_fail_soft_fold exampleCollector "c1").1.trans (by decide), by decide⟩

/-! ## The collection cycle -/

theorem ListClusters_length (bc : BurrowClient) : bc.ListClusters.1.length ≤ 1 := by
  unfold BurrowClient.ListClusters BurrowClient.getJsonReq
  rcases hb : bc.buildURL "/kafka" with err | endpoint
  · simp
  · rcases hg : bc.client.getClusters endpoint with err | r
    · simp [hg]
    · by_cases hr : r.Error <;> simp [hr, hg]

theorem quiet_of_requests (evs : List Event) (h : ∀ e ∈ evs, e.isRequest = true) :
    ∀ e ∈ evs, e ≠ Event.lock ∧ e ≠ Event.unlock := by
  intro e he
  have := h e he
  cases e <;> simp_all [Event.isRequest]

/-- C3: when the cluster listing fails, `Collect` does nothing but lock, make the listing's
own request (one at most) and unlock: it sends no sample, makes no other request to the
Status Source, and leaves the mutex free.  This holds for every collector. -/
theorem Collect_aborts_when_ListClusters_fails (c : Collector) (evs : List Event)
    (err : GoError) (h : c.client.ListClusters = (evs, .error err)) :
    c.Collect = [Event.lock] ++ evs ++ [Event.unlock]
    ∧ sent c.Collect = []
    ∧ requests c.Collect = requests evs
    ∧ evs.length ≤ 1
    ∧ heldAfter false c.Collect = false := by
  have hev : ∀ e ∈ evs, e.isRequest = true := by
    have := ListClusters_events c.client
    rwa [h] at this
  have hlen : evs.length ≤ 1 := by
    have := ListClusters_length c.client
    rwa [h] at this
  have hc := Collect_error c evs err h
  refine ⟨hc, ?_, ?_, hlen, ?_⟩
  · rw [hc]
    simp [sent_append, sent_of_requests evs hev, sent]
  · rw [hc]
    simp [requests_append, requests]
  · rw [hc]
    simp [heldAfter_append, heldAfter]

/-- C3, on a concrete input: with an unreachable cluster listing the cycle is lock, one
request, unlock. -/
theorem Collect_aborts_when_ListClusters_fails_witness :
    unreachableCollector.client.ListClusters
        = ([Event.request "http://localhost:8000/v3/kafka"],
            .error (.plain "connection refused"))
    ∧ unreachableCollector.Collect
        = [Event.lock, Event.request "http://localhost:8000/v3/kafka", Event.unlock]
    ∧ sent unreachableCollector.Collect = [] :=
  ⟨rfl, (Collect_aborts_when_ListClusters_fails unreachableCollector _ _ rfl).1,
   (Collect_aborts_when_ListClusters_fails unreachableCollector _ _ rfl).2.1⟩

theorem flatMap_eq_of_eq_on {α β : Type} (f g : α → List β) (l : List α)
    (h : ∀ a ∈ l, f a = g a) : l.flatMap f = l.flatMap g := by
  induction l with
  | nil => rfl
  | cons a l ih =>
    rw [List.flatMap_cons, List.flatMap_cons, h a (List.mem_cons_self _ _),
      ih (fun b hb => h b (List.mem_cons_of_mem _ hb))]

theorem sent_Collect_ok (c : Collector) (evs : List Event) (clusters : ClustersResp)
    (h : c.client.ListClusters = (evs, .ok clusters)) :
    sent c.Collect = clusters.Clusters.flatMap (fun k => (c.scrape k).2) := by
  have hev : ∀ e ∈ evs, e.isRequest = true := by
    have := ListClusters_events c.client
    rwa [h] at this
  rw [Collect_ok c evs clusters h]
  simp [sent_append, sent_of_requests evs hev, sent_flatMap_scrape, sent]

/-- C8: when the cluster listing succeeds with `k_1 … k_m`, the samples `Collect` sends are
`scrape k_1 ++ … ++ scrape k_m`, in listing order.  A cluster whose two listing calls fail
contributes nothing, and a cluster that contributes nothing leaves the samples sent the same
as those of a cycle whose cluster list lacks it. -/
theorem Collect_cluster_isolation (c : Collector) (evs : List Event) (clusters : ClustersResp)
    (h : c.client.ListClusters = (evs, .ok clusters)) :
    sent c.Collect = clusters.Clusters.flatMap (fun k => (c.scrape k).2)
    ∧ (∀ k evs1 err1 evs2 err2, c.client.ListConsumers k = (evs1, .error err1) →
        c.client.ListTopics k = (evs2, .error err2) → (c.scrape k).2 = [])
    ∧ (∀ pre k post, clusters.Clusters = pre ++ k :: post → (c.scrape k).2 = [] →
        sent c.Collect = (pre ++ post).flatMap (fun k => (c.scrape k).2)
        ∧ ∀ (c' : Collector) evs' (clusters' : ClustersResp),
            c'.client.ListClusters = (evs', .ok clusters') →
            clusters'.Clusters = pre ++ post →
            (∀ k' ∈ pre ++ post, (c'.scrape k').2 = (c.scrape k').2) →
            sent c.Collect = sent c'.Collect) := by
  have hs := sent_Collect_ok c evs clusters h
  refine ⟨hs, ?_, ?_⟩
  · intro k evs1 err1 evs2 err2 h1 h2
    rw [scrape_metrics, listedGroups_of_error c k evs1 err1 h1,
      listedTopics_of_error c k evs2 err2 h2]
    rfl
  · intro pre k post hk hempty
    have hskip : sent c.Collect = (pre ++ post).flatMap (fun k => (c.scrape k).2) := by
      rw [hs, hk]
      simp [List.flatMap_append, List.flatMap_cons, hempty]
    refine ⟨hskip, ?_⟩
    intro c' evs' clusters' h' hl hsame
    rw [hskip, sent_Collect_ok c' evs' clusters' h', hl]
    exact (flatMap_eq_of_eq_on _ _ _ hsame).symm

/-- C8, on a concrete input: the upstream lists `prod`, `down`, `c1`; every call about `down`
fails; the cycle sends the samples of `prod` followed by those of `c1`, the same fifteen
samples as with the cluster list `prod`, `c1`. -/
theorem Collect_cluster_isolation_witness :
    exampleCollector.client.ListClusters
        = ([Event.request "http://localhost:8000/v3/kafka"],
            .ok { toBurrowResp := okResp, Clusters := ["prod", "down", "c1"] })
    ∧ (exampleCollector.scrape "down").2 = []
    ∧ sent exampleCollector.Collect
        = (exampleCollector.scrape "prod").2 ++ (exampleCollector.scrape "c1").2
    ∧ sent exampleCollector.Collect = sent collectorWithoutDown.Collect
    ∧ (sent exampleCollector.Collect).length = 15 :=
  ⟨rfl, by decide,
   ((Collect_cluster_isolation exampleCollector _ _ rfl).2.2
      ["prod"] "down" ["c1"] rfl (by decide)).1.trans (by decide),
   ((Collect_cluster_isolation exampleCollector _ _ rfl).2.2
      ["prod"] "down" ["c1"] rfl (by decide)).2
      collectorWithoutDown _ _ rfl rfl (by decide),
   by decide⟩

/-! ## Disabled families -/

theorem desc_partitionSamples (c : Collector) (cluster group : String) (p : Partition) :
    ∀ m ∈ partitionSamples c cluster group p, m.desc ∈ enabledDescs c := by
  intro m hm
  unfold partitionSamples at hm
  simp only [List.mem_append] at hm
  rcases hm with ((hm | hm) | hm) | hm <;>
    · split at hm
      · simp at hm
      · rw [List.mem_singleton] at hm
        subst hm
        simp_all [enabledDescs]

theorem desc_groupSamples (c : Collector) (st : ConsumerGroupStatus) :
    ∀ m ∈ groupSamples c st, m.desc ∈ enabledDescs c := by
  intro m hm
  unfold groupSamples at hm
  simp only [List.mem_append] at hm
  rcases hm with hm | hm <;>
    · split at hm
      · simp at hm
      · rw [List.mem_singleton] at hm
        subst hm
        simp_all [enabledDescs]

theorem desc_processGroup (c : Collector) (cluster group : String) :
    ∀ m ∈ (c.processGroup cluster group).2, m.desc ∈ enabledDescs c := by
  intro m hm
  rcases h : c.client.ConsumerGroupLag cluster group with ⟨evs, err | resp⟩
  · rw [processGroup_error c cluster group evs err h] at hm
    simp at hm
  · rw [processGroup_ok c cluster group evs resp h] at hm
    simp only [expectedGroupSamples, List.mem_append, List.mem_flatMap] at hm
    rcases hm with ⟨p, -, hm⟩ | hm
    · exact desc_partitionSamples c _ _ p m hm
    · exact desc_groupSamples c _ m hm

theorem desc_processTopic (c : Collector) (cluster topic : String) :
    ∀ m ∈ (c.processTopic cluster topic).2, m.desc ∈ enabledDescs c := by
  intro m hm
  rcases h : c.client.ClusterTopicDetails cluster topic with ⟨evs, err | details⟩
  · rw [processTopic_error c cluster topic evs err h] at hm
    simp at hm
  · rw [processTopic_ok c cluster topic evs details h] at hm
    by_cases hs : c.skipTopicPartitionOffset = true
    · simp [hs] at hm
    · rw [if_neg hs, expectedTopicSamples, List.mem_map] at hm
      obtain ⟨io, -, hio⟩ := hm
      rw [← hio]
      simp [enabledDescs, hs, topicSample]

theorem desc_scrape (c : Collector) (cluster : String) :
    ∀ m ∈ (c.scrape cluster).2, m.desc ∈ enabledDescs c := by
  intro m hm
  rw [scrape_metrics] at hm
  simp only [List.mem_append, List.mem_flatMap] at hm
  rcases hm with ⟨g, -, hm⟩ | ⟨t, -, hm⟩
  · exact desc_processGroup c cluster g m hm
  · exact desc_processTopic c cluster t m hm

theorem desc_Collect (c : Collector) : ∀ m ∈ sent c.Collect, m.desc ∈ enabledDescs c := by
  intro m hm
  rcases h : c.client.ListClusters with ⟨evs, err | clusters⟩
  · have hev : ∀ e ∈ evs, e.isRequest = true := by
      have := ListClusters_events c.client
      rwa [h] at this
    rw [Collect_error c evs err h] at hm
    simp [sent_append, sent_of_requests evs hev, sent] at hm
  · rw [sent_Collect_ok c evs clusters h] at hm
    simp only [List.mem_flatMap] at hm
    obtain ⟨k, -, hm⟩ := hm
    exact desc_scrape c k m hm

theorem foldl_disabled_true (pieces : List String) (set : String → Bool) (key : String)
    (h : set key = true) :
    pieces.foldl (fun set v key => if key = v then true else set key) set key = true := by
  induction pieces generalizing set with
  | nil => exact h
  | cons v vs ih =>
    rw [List.foldl_cons]
    apply ih
    simp [h]

theorem disabledMetricsSet_of_mem (pieces : List String) (key : String) (h : key ∈ pieces) :
    disabledMetricsSet pieces key = true := by
  unfold disabledMetricsSet
  induction pieces generalizing key with
  | nil => simp at h
  | cons v vs ih =>
    rw [List.foldl_cons]
    rcases List.mem_cons.mp h with rfl | hmem
    · exact foldl_disabled_true _ _ _ (by simp)
    · generalize (fun key => if key = v then true else (fun _ => false) key) = set0
      clear ih h
      induction vs generalizing set0 with
      | nil => simp at hmem
      | cons w ws ih2 =>
        rw [List.foldl_cons]
        rcases List.mem_cons.mp hmem with rfl | hmem2
        · exact foldl_disabled_true _ _ _ (by simp)
        · exact ih2 hmem2 _

theorem not_mem_ite_singleton (b : Bool) (x y : Desc) (h : x ≠ y) :
    x ∉ (if b = true then [] else [y]) := by
  cases b <;> simp [h]

theorem not_mem_ite_of_true (b : Bool) (x y : Desc) (h : b = true) :
    x ∉ (if b = true then [] else [y]) := by
  simp [h]

theorem not_enabled_of_skip (c : Collector) :
    (c.skipPartitionStatus = true → kafkaConsumerPartitionCurrentStatusDesc ∉ enabledDescs c)
    ∧ (c.skipConsumerStatus = true → kafkaConsumerStatusDesc ∉ enabledDescs c)
    ∧ (c.skipPartitionLag = true → kafkaConsumerPartitionLagDesc ∉ enabledDescs c)
    ∧ (c.skipPartitionCurrentOffset = true →
        kafkaConsumerPartitionCurrentOffsetDesc ∉ enabledDescs c)
    ∧ (c.skipPartitionMaxOffset = true → kafkaConsumerPartitionMaxOffsetDesc ∉ enabledDescs c)
    ∧ (c.skipTotalLag = true → kafkaConsumerTotalLagDesc ∉ enabledDescs c)
    ∧ (c.skipTopicPartitionOffset = true → kafkaTopicPartitionOffsetDesc ∉ enabledDescs c) := by
  refine ⟨?_, ?_, ?_, ?_, ?_, ?_, ?_⟩ <;>
    · intro h
      simp only [enabledDescs, List.mem_append, not_or]
      refine ⟨⟨⟨⟨⟨⟨?_, ?_⟩, ?_⟩, ?_⟩, ?_⟩, ?_⟩, ?_⟩ <;>
        first
        | exact not_mem_ite_singleton _ _ _ (by decide)
        | exact not_mem_ite_of_true _ _ _ h

theorem not_enabled_of_disabled (net : Net) (burrowUrl : String) (apiVersion : Int)
    (d f : String) (desc : Desc) (hf : familyDesc f = some desc) (hd : f ∈ splitComma d) :
    desc ∉ enabledDescs (NewCollector net burrowUrl apiVersion d) := by
  have hset := disabledMetricsSet_of_mem (splitComma d) f hd
  have hskip := not_enabled_of_skip (NewCollector net burrowUrl apiVersion d)
  unfold familyDesc at hf
  split at hf <;> simp only [Option.some.injEq, reduceCtorEq] at hf <;> subst hf
  · exact hskip.1 hset
  · exact hskip.2.1 hset
  · exact hskip.2.2.1 hset
  · exact hskip.2.2.2.1 hset
  · exact hskip.2.2.2.2.1 hset
  · exact hskip.2.2.2.2.2.1 hset
  · exact hskip.2.2.2.2.2.2 hset

/-- C2: when the name of one of the seven families is among the comma-separated pieces of
the disabled-metrics setting, the collector built by `NewCollector` never produces a sample
of that family, whatever the upstream answers: not from `processGroup`, not from
`processTopic`, not from `scrape`, and `Collect` sends none. -/
theorem disabled_family_never_produced (net : Net) (burrowUrl : String) (apiVersion : Int)
    (d f : String) (desc : Desc) (hf : familyDesc f = some desc) (hd : f ∈ splitComma d) :
    (∀ cluster group,
      ∀ m ∈ ((NewCollector net burrowUrl apiVersion d).processGroup cluster group).2,
        m.desc ≠ desc)
    ∧ (∀ cluster topic,
        ∀ m ∈ ((NewCollector net burrowUrl apiVersion d).processTopic cluster topic).2,
          m.desc ≠ desc)
    ∧ (∀ cluster, ∀ m ∈ ((NewCollector net burrowUrl apiVersion d).scrape cluster).2,
        m.desc ≠ desc)
    ∧ (∀ m ∈ sent (NewCollector net burrowUrl apiVersion d).Collect, m.desc ≠ desc) := by
  have hno := not_enabled_of_disabled net burrowUrl apiVersion d f desc hf hd
  refine ⟨?_, ?_, ?_, ?_⟩
  · intro cluster group m hm heq
    exact hno (heq ▸ desc_processGroup _ cluster group m hm)
  · intro cluster topic m hm heq
    exact hno (heq ▸ desc_processTopic _ cluster topic m hm)
  · intro cluster m hm heq
    exact hno (heq ▸ desc_scrape _ cluster m hm)
  · intro m hm heq
    exact hno (heq ▸ desc_Collect _ m hm)

/-- C2, on a concrete input: with the setting `total-lag,consumer-status,topic-partition-offset`
no sample sent by a cycle over the example upstream is a total-lag sample, and the group
`g1` yields its four partition samples only. -/
theorem disabled_family_never_produced_witness :
    familyDesc "total-lag" = some kafkaConsumerTotalLagDesc
    ∧ "total-lag" ∈ splitComma "total-lag,consumer-status,topic-partition-offset"
    ∧ (∀ m ∈ sent partitionOnlyCollector.Collect, m.desc ≠ kafkaConsumerTotalLagDesc)
    ∧ (partitionOnlyCollector.processGroup "prod" "g1").2.length = 4 :=
  ⟨rfl, by decide,
   (disabled_family_never_produced exampleNet "http://localhost:8000" 3
      "total-lag,consumer-status,topic-partition-offset" "total-lag"
      kafkaConsumerTotalLagDesc rfl (by decide)).2.2.2,
   by decide⟩

/-! ## The error flag of a response body -/

theorem sprintfNoOperands_of_no_percent (cs : List Char) (h : '%' ∉ cs) :
    sprintfNoOperands cs = some cs := by
  induction cs with
  | nil => rfl
  | cons c cs ih =>
    have hc : c ≠ '%' := fun hc => h (hc ▸ List.mem_cons_self _ _)
    have hcs : '%' ∉ cs := fun hcs => h (List.mem_cons_of_mem _ hcs)
    cases cs with
    | nil => rw [sprintfNoOperands, if_neg hc]
    | cons v rest =>
      rw [sprintfNoOperands, if_neg hc, ih hcs]
      rfl

theorem Error_errorf_of_no_percent (m : String) (h : '%' ∉ m.toList) :
    (GoError.errorf m).Error = some m := by
  show Option.map String.mk (sprintfNoOperands m.toList) = some m
  rw [sprintfNoOperands_of_no_percent m.toList h]
  rfl

theorem ListClusters_of_body (bc : BurrowClient) (endpoint : String) (body : ClustersResp)
    (hb : bc.buildURL "/kafka" = .ok endpoint) (hg : bc.client.getClusters endpoint = .ok body) :
    bc.ListClusters.2
      = if body.Error then .error (.errorf body.Message) else .ok body := by
  unfold BurrowClient.ListClusters BurrowClient.getJsonReq
  by_cases hr : body.Error <;> simp [hb, hg, hr]

theorem ListConsumers_of_body (bc : BurrowClient) (cluster endpoint : String)
    (body : ConsumerGroupsResp)
    (hb : bc.buildURL ("/kafka/" ++ cluster ++ "/consumer") = .ok endpoint)
    (hg : bc.client.getConsumerGroups endpoint = .ok body) :
    (bc.ListConsumers cluster).2
      = if body.Error then .error (.errorf body.Message) else .ok body := by
  unfold BurrowClient.ListConsumers BurrowClient.getJsonReq
  by_cases hr : body.Error <;> simp [hb, hg, hr]

theorem ListTopics_of_body (bc : BurrowClient) (cluster endpoint : String) (body : TopicsResp)
    (hb : bc.buildURL ("/kafka/" ++ cluster ++ "/topic") = .ok endpoint)
    (hg : bc.client.getTopics endpoint = .ok body) :
    (bc.ListTopics cluster).2
      = if body.Error then .error (.errorf body.Message) else .ok body := by
  unfold BurrowClient.ListTopics BurrowClient.getJsonReq
  by_cases hr : body.Error <;> simp [hb, hg, hr]

theorem ConsumerGroupLag_of_body (bc : BurrowClient) (cluster group endpoint : String)
    (body : ConsumerGroupStatusResp)
    (hb : bc.buildURL ("/kafka/" ++ cluster ++ "/consumer/" ++ group ++ "/lag") = .ok endpoint)
    (hg : bc.client.getConsumerGroupStatus endpoint = .ok body) :
    (bc.ConsumerGroupLag cluster group).2
      = if body.Error then .error (.errorf body.Message) else .ok body := by
  unfold BurrowClient.ConsumerGroupLag BurrowClient.getJsonReq
  by_cases hr : body.Error <;> simp [hb, hg, hr]

theorem ClusterTopicDetails_of_body (bc : BurrowClient) (cluster topic endpoint : String)
    (body : ClusterTopicDetailsResp)
    (hb : bc.buildURL ("/kafka/" ++ cluster ++ "/topic/" ++ topic) = .ok endpoint)
    (hg : bc.client.getClusterTopicDetails endpoint = .ok body) :
    (bc.ClusterTopicDetails cluster topic).2
      = if body.Error then .error (.errorf body.Message) else .ok body := by
  unfold BurrowClient.ClusterTopicDetails BurrowClient.getJsonReq
  by_cases hr : body.Error <;> simp [hb, hg, hr]

/-- C9, at the failing input: every body carries the error flag and the message
`lag at 100%`.  Each of the five operations fails, as it should, but the failure is
`fmt.Errorf` applied to the message as a format string, and its text is
`lag at 100%!(NOVERB)`, not the message. -/
theorem flagged_message_is_formatted :
    flaggedClient.ListClusters.2 = .error (.errorf "lag at 100%")
    ∧ (flaggedClient.ListConsumers "prod").2 = .error (.errorf "lag at 100%")
    ∧ (flaggedClient.ListTopics "prod").2 = .error (.errorf "lag at 100%")
    ∧ (flaggedClient.ConsumerGroupLag "prod" "g1").2 = .error (.errorf "lag at 100%")
    ∧ (flaggedClient.ClusterTopicDetails "prod" "t1").2 = .error (.errorf "lag at 100%")
    ∧ (GoError.errorf "lag at 100%").Error = some "lag at 100%!(NOVERB)"
    ∧ (GoError.errorf "lag at 100%").Error ≠ some "lag at 100%" := by
  refine ⟨rfl, rfl, rfl, rfl, rfl, by decide, by decide⟩

/-! ## One cycle at a time -/

theorem eventsOf_cons_same (b : Bool) (e : Event) (tr : List (Bool × Event)) :
    eventsOf b ((b, e) :: tr) = e :: eventsOf b tr := by
  simp [eventsOf]

theorem eventsOf_cons_other (b : Bool) (e : Event) (tr : List (Bool × Event)) :
    eventsOf b ((!b, e) :: tr) = eventsOf b tr := by
  cases b <;> simp [eventsOf]

theorem eventsOf_not_cons (b : Bool) (e : Event) (tr : List (Bool × Event)) :
    eventsOf (!b) ((b, e) :: tr) = eventsOf (!b) tr := by
  cases b <;> simp [eventsOf]

theorem eq_tag_of_other_silent (b : Bool) (tr : List (Bool × Event))
    (h : eventsOf b tr = []) : tr = tag (!b) (eventsOf (!b) tr) := by
  induction tr with
  | nil => rfl
  | cons te tr ih =>
    obtain ⟨t, e⟩ := te
    by_cases ht : t = b
    · subst ht
      rw [eventsOf_cons_same] at h
      exact absurd h (List.cons_ne_nil _ _)
    · have ht2 : t = !b := by cases t <;> cases b <;> simp_all
      subst ht2
      rw [eventsOf_cons_other] at h
      rw [eventsOf_cons_same, tag, List.map_cons, ← tag, ← ih h]

theorem critical_section_first (b : Bool) (tr : List (Bool × Event)) (a other : List Event)
    (ha : ∀ e ∈ a, e ≠ Event.lock ∧ e ≠ Event.unlock)
    (hb : eventsOf b tr = a ++ [Event.unlock])
    (ho : eventsOf (!b) tr = Event.lock :: other)
    (hm : mutexRespected true tr = true) :
    tr = tag b (a ++ [Event.unlock]) ++ tag (!b) (Event.lock :: other) := by
  induction tr generalizing a with
  | nil => simp [eventsOf] at ho
  | cons te tr ih =>
    obtain ⟨t, e⟩ := te
    by_cases ht : t = b
    · subst ht
      rw [eventsOf_cons_same] at hb
      rw [eventsOf_not_cons] at ho
      cases a with
      | nil =>
        rw [List.nil_append, List.cons.injEq] at hb
        obtain ⟨he, hrest⟩ := hb
        subst he
        have := eq_tag_of_other_silent t tr hrest
        rw [ho] at this
        rw [this]
        rfl
      | cons x a =>
        rw [List.cons_append, List.cons.injEq] at hb
        obtain ⟨he, hrest⟩ := hb
        subst he
        have hx := ha e (List.mem_cons_self _ _)
        have hm2 : mutexRespected true tr = true := by
          cases e <;> simp_all [mutexRespected]
        rw [ih a (fun e he => ha e (List.mem_cons_of_mem _ he)) hrest ho hm2]
        rfl
    · have ht2 : t = !b := by cases t <;> cases b <;> simp_all
      subst ht2
      rw [eventsOf_cons_same, List.cons.injEq] at ho
      obtain ⟨he, -⟩ := ho
      subst he
      simp [mutexRespected] at hm

theorem two_cycles_sequential (tr : List (Bool × Event)) (a a' : List Event)
    (ha : ∀ e ∈ a, e ≠ Event.lock ∧ e ≠ Event.unlock)
    (ha' : ∀ e ∈ a', e ≠ Event.lock ∧ e ≠ Event.unlock)
    (h0 : eventsOf false tr = Event.lock :: (a ++ [Event.unlock]))
    (h1 : eventsOf true tr = Event.lock :: (a' ++ [Event.unlock]))
    (hm : mutexRespected false tr = true) :
    tr = tag false (Event.lock :: (a ++ [Event.unlock]))
          ++ tag true (Event.lock :: (a' ++ [Event.unlock]))
    ∨ tr = tag true (Event.lock :: (a' ++ [Event.unlock]))
          ++ tag false (Event.lock :: (a ++ [Event.unlock])) := by
  cases tr with
  | nil => simp [eventsOf] at h0
  | cons te tr =>
    obtain ⟨t, e⟩ := te
    cases t with
    | false =>
      left
      rw [eventsOf_cons_same, List.cons.injEq] at h0
      obtain ⟨he, h0⟩ := h0
      subst he
      have h1' : eventsOf true tr = Event.lock :: (a' ++ [Event.unlock]) :=
        (eventsOf_not_cons false Event.lock tr).symm.trans h1
      have hm2 : mutexRespected true tr = true := by simpa [mutexRespected] using hm
      rw [critical_section_first false tr a _ ha h0 h1' hm2]
      rfl
    | true =>
      right
      rw [eventsOf_cons_same, List.cons.injEq] at h1
      obtain ⟨he, h1⟩ := h1
      subst he
      have h0' : eventsOf false tr = Event.lock :: (a ++ [Event.unlock]) :=
        (eventsOf_not_cons true Event.lock tr).symm.trans h0
      have hm2 : mutexRespected true tr = true := by simpa [mutexRespected] using hm
      rw [critical_section_first true tr a' _ ha' h1 h0' hm2]
      rfl

theorem Collect_shape (c : Collector) :
    ∃ body, c.Collect = Event.lock :: (body ++ [Event.unlock])
      ∧ ∀ e ∈ body, e ≠ Event.lock ∧ e ≠ Event.unlock := by
  rcases h : c.client.ListClusters with ⟨evs, err | clusters⟩
  · have hev : ∀ e ∈ evs, e.isRequest = true := by
      have := ListClusters_events c.client
      rwa [h] at this
    exact ⟨evs, by rw [Collect_error c evs err h]; rfl, quiet_of_requests evs hev⟩
  · have hev : ∀ e ∈ evs, e.isRequest = true := by
      have := ListClusters_events c.client
      rwa [h] at this
    refine ⟨evs ++ clusters.Clusters.flatMap
        (fun k => (c.scrape k).1 ++ (c.scrape k).2.map Event.send),
      by rw [Collect_ok c evs clusters h]; rfl, ?_⟩
    intro e he
    simp only [List.mem_append, List.mem_flatMap, List.mem_map] at he
    rcases he with he | ⟨k, -, he | ⟨m, -, rfl⟩⟩
    · exact quiet_of_requests evs hev e he
    · exact quiet_of_requests _ (scrape_events c k) e he
    · exact ⟨fun h => Event.noConfusion h, fun h => Event.noConfusion h⟩

/-- C10: every call of `Collect` locks the mutex first, unlocks it last and exactly once, and
makes all its requests and sends in between.  Hence, for two calls sharing the mutex, every
merged course of events the mutex allows is one whole cycle followed by the other whole
cycle: the later cycle makes no request before the earlier one has unlocked. -/
theorem Collect_one_cycle_at_a_time (c c' : Collector) :
    (∃ body, c.Collect = Event.lock :: (body ++ [Event.unlock])
      ∧ (∀ e ∈ body, e ≠ Event.lock ∧ e ≠ Event.unlock)
      ∧ requests c.Collect = requests body ∧ sent c.Collect = sent body)
    ∧ ∀ tr : List (Bool × Event),
        eventsOf false tr = c.Collect → eventsOf true tr = c'.Collect →
        mutexRespected false tr = true →
          tr = tag false c.Collect ++ tag true c'.Collect
          ∨ tr = tag true c'.Collect ++ tag false c.Collect := by
  obtain ⟨a, hA, ha⟩ := Collect_shape c
  obtain ⟨a', hA', ha'⟩ := Collect_shape c'
  refine ⟨⟨a, hA, ha, ?_, ?_⟩, ?_⟩
  · rw [hA]
    simp [requests, requests_append]
  · rw [hA]
    simp [sent, sent_append]
  · intro tr h0 h1 hm
    rw [hA] at h0 ⊢
    rw [hA'] at h1 ⊢
    exact two_cycles_sequential tr a a' ha ha' h0 h1 hm

/-- C10, on a concrete input: a cycle against the unreachable upstream (caller `true`) runs
whole before a cycle against the example upstream (caller `false`); a course of events in
which the second caller locks while the first holds the mutex is not one the mutex allows. -/
theorem Collect_one_cycle_at_a_time_witness :
    eventsOf false (tag true unreachableCollector.Collect ++ tag false exampleCollector.Collect)
        = exampleCollector.Collect
    ∧ eventsOf true (tag true unreachableCollector.Collect ++ tag false exampleCollector.Collect)
        = unreachableCollector.Collect
    ∧ mutexRespected false
        (tag true unreachableCollector.Collect ++ tag false exampleCollector.Collect) = true
    ∧ (tag true unreachableCollector.Collect ++ tag false exampleCollector.Collect
          = tag false exampleCollector.Collect ++ tag true unreachableCollector.Collect
        ∨ tag true unreachableCollector.Collect ++ tag false exampleCollector.Collect
          = tag true unreachableCollector.Collect ++ tag false exampleCollector.Collect)
    ∧ mutexRespected false
        ((true, Event.lock) :: (false, Event.lock) :: tag false exampleCollector.Collect.tail
          ++ tag true unreachableCollector.Collect.tail) = false :=
  ⟨by decide, by decide, by decide,
   (Collect_one_cycle_at_a_time exampleCollector unreachableCollector).2 _
     (by decide) (by decide) (by decide),
   by decide⟩

end Burrow
